import Mathlib

/-!
Verification development for the `digital-twin` switch-fabric simulator
(`omniswitch.py`, `main.py`, `osTelnetCLI.py`).

The Python code is shallowly embedded: Python `dict`s (insertion-ordered)
become association lists with first-occurrence lookup and
update-in-place-or-append insertion; IPv4 addresses are 32-bit naturals,
kept as dotted-decimal strings exactly where the source keeps strings;
`time.time()` values are rationals passed explicitly.
-/

namespace DigitalTwin

/-! ## Association lists: the embedding of Python dicts -/

/-- First-occurrence lookup, the semantics of `d[k]` / `d.get(k)`. -/
def alookup {K V : Type} [DecidableEq K] : List (K × V) → K → Option V
  | [], _ => none
  | (k, v) :: rest, q => if k = q then some v else alookup rest q

/-- `d[k] = v`: replace the first binding of `k` in place, else append. -/
def ainsert {K V : Type} [DecidableEq K] : List (K × V) → K → V → List (K × V)
  | [], q, v => [(q, v)]
  | (k, w) :: rest, q, v =>
      if k = q then (q, v) :: rest else (k, w) :: ainsert rest q v

theorem alookup_ainsert_self {K V : Type} [DecidableEq K]
    (l : List (K × V)) (k : K) (v : V) : alookup (ainsert l k v) k = some v := by
  induction l with
  | nil => simp [ainsert, alookup]
  | cons hd tl ih =>
      by_cases h : hd.1 = k
      · simp [ainsert, alookup, h]
      · simp [ainsert, alookup, h, ih]

theorem alookup_ainsert_ne {K V : Type} [DecidableEq K]
    (l : List (K × V)) (k q : K) (v : V) (hne : k ≠ q) :
    alookup (ainsert l k v) q = alookup l q := by
  induction l with
  | nil => simp [ainsert, alookup, hne]
  | cons hd tl ih =>
      by_cases h : hd.1 = k
      · have hq : hd.1 ≠ q := by rw [h]; exact hne
        simp [ainsert, alookup, h, hne, hq]
      · simp [ainsert, alookup, h, ih]

theorem alookup_ainsert {K V : Type} [DecidableEq K]
    (l : List (K × V)) (k q : K) (v : V) :
    alookup (ainsert l k v) q = if k = q then some v else alookup l q := by
  by_cases h : k = q
  · subst h; simp [alookup_ainsert_self]
  · simp [h, alookup_ainsert_ne l k q v h]

/-! ## IPv4 addresses and networks

`ipaddress.ip_address` values are 32-bit naturals; `ipaddress.ip_network`
values are an address plus a prefix length.  Parsing/printing of the
dotted-decimal forms mirrors the canonical representation the source
manipulates through the `ipaddress` module. -/

structure IPNet where
  addr : Nat
  prefixLen : Nat
deriving DecidableEq

/-- Membership of an address in a network (`ip_address(d) in ip_network(n)`):
both sides agree on the top `prefixLen` bits. -/
def ipInNet (ip : Nat) (n : IPNet) : Bool :=
  ip / 2 ^ (32 - n.prefixLen) = n.addr / 2 ^ (32 - n.prefixLen)

/-- Split a character list on a separator (kernel-reducible analogue of the
string splitting done inside the `ipaddress` parsers). -/
def splitOnChar (sep : Char) : List Char → List (List Char)
  | [] => [[]]
  | x :: xs =>
    match splitOnChar sep xs with
    | [] => [[]]
    | g :: gs => if x = sep then [] :: g :: gs else (x :: g) :: gs

def digitsToNatAux : Nat → List Char → Option Nat
  | acc, [] => some acc
  | acc, c :: cs =>
      if '0' ≤ c ∧ c ≤ '9' then digitsToNatAux (acc * 10 + (c.toNat - 48)) cs
      else none

/-- Parse a decimal numeral (empty and non-digit strings fail). -/
def digitsToNat : List Char → Option Nat
  | [] => none
  | c :: cs => digitsToNatAux 0 (c :: cs)

/-- Parse a dotted-decimal IPv4 address. -/
def parseIp (s : String) : Option Nat :=
  match (splitOnChar '.' s.toList).mapM digitsToNat with
  | some [a, b, c, d] =>
      if a < 256 ∧ b < 256 ∧ c < 256 ∧ d < 256 then
        some (((a * 256 + b) * 256 + c) * 256 + d)
      else none
  | _ => none

/-- Parse `"a.b.c.d/p"`, as `ipaddress.ip_interface` does (host bits kept). -/
def parseCidr (s : String) : Option IPNet :=
  match splitOnChar '/' s.toList with
  | [ip, p] =>
      match parseIp (String.mk ip), digitsToNat p with
      | some a, some pl => if pl ≤ 32 then some ⟨a, pl⟩ else none
      | _, _ => none
  | _ => none

/-- Render an address back to dotted decimal (`str(ip_address(n))`). -/
def ipStr (n : Nat) : String :=
  toString (n / 2 ^ 24 % 256) ++ "." ++ toString (n / 2 ^ 16 % 256) ++ "." ++
    toString (n / 2 ^ 8 % 256) ++ "." ++ toString (n % 256)

/-- Mask the host bits: `ip_interface(s).network`'s address. -/
def maskAddr (ip pl : Nat) : Nat := ip / 2 ^ (32 - pl) * 2 ^ (32 - pl)

/-- `str(ip_interface(s).network)`, canonical CIDR of the connected net. -/
def netStrOf (n : IPNet) : String :=
  ipStr (maskAddr n.addr n.prefixLen) ++ "/" ++ toString n.prefixLen

/-- `ip_address(dst) in ip_network(network)` on the string forms used by
`_lookup_route`.  (On strings `ipaddress` would reject, the source raises;
those never occur on the claims' inputs, and we evaluate to `false`.) -/
def cidrContains (network dst : String) : Bool :=
  match parseCidr network, parseIp dst with
  | some n, some ip => ipInNet ip n
  | _, _ => false

/-! ## The routing table

`OmniSwitch.routing_table : Dict[str, Tuple[str, str]]` maps a CIDR string
to `(next_hop, provenance)`. -/

abbrev RoutingTable := List (String × String × String)

/-- `OmniSwitch._lookup_route`: scan the table in insertion order and
return the first entry whose network contains the destination. -/
def lookupRoute (rt : RoutingTable) (dst : String) : Option (String × String) :=
  match rt with
  | [] => none
  | (network, e) :: rest =>
      if cidrContains network dst then some e else lookupRoute rest dst

/-- `OmniSwitch.add_route` (the `ip static-route <cidr> gateway <ip>`
handler): unconditional `self.routing_table[ip_cidr] = (next_hop, "static")`. -/
def addRoute (rt : RoutingTable) (ipCidr nextHop : String) : RoutingTable :=
  ainsert rt ipCidr (nextHop, "static")

/-- `OmniSwitch.redistribute_ospf_routes`: copy each OSPF route into the
routing table with provenance `"ospf"`, only if the key is absent. -/
def redistributeOspfRoutes (rt : RoutingTable)
    (ospfRoutes : List (String × String × Nat)) : RoutingTable :=
  ospfRoutes.foldl
    (fun acc p =>
      if (alookup acc p.1).isSome then acc
      else ainsert acc p.1 (p.2.1, "ospf"))
    rt

/-- Provenance precedence `connected > static > ospf` (smaller is better). -/
def provRank (p : String) : Nat :=
  if p = "connected" then 0 else if p = "static" then 1
  else if p = "ospf" then 2 else 3

/-- Prefix length of a CIDR string. -/
def prefixLenOf (network : String) : Nat :=
  ((parseCidr network).map IPNet.prefixLen).getD 0

/-- Modelled from the spec (refinement target, not from the source): `res`
is a longest-prefix-match answer for `dst` over `rt` — among all entries
whose network contains the address the longest prefix wins, ties broken by
provenance order `connected > static > ospf`, and `none` exactly when no
entry's network contains the address. -/
def isLpmResult (rt : RoutingTable) (dst : String)
    (res : Option (String × String)) : Prop :=
  match res with
  | none => ∀ p ∈ rt, cidrContains p.1 dst = false
  | some e =>
      ∃ p ∈ rt, p.2 = e ∧ cidrContains p.1 dst = true ∧
        ∀ q ∈ rt, cidrContains q.1 dst = true →
          prefixLenOf q.1 < prefixLenOf p.1 ∨
            (prefixLenOf q.1 = prefixLenOf p.1 ∧ provRank e.2 ≤ provRank q.2.2)

/-! ## The switch data model

Only the fields the verified operations read or write are modelled; the
PoE, MVRP, trunking and cosmetic fields of the source are never touched
by the claims' code paths. -/

structure Port where
  portId : Nat
  linkedNode : Option String
  macAddress : Option String
  ipAddress : Option String
  vlan : Nat
  status : String
  l3Enabled : Bool
  mode : String
  speedMbps : Nat
deriving DecidableEq

/-- `Port.__init__` defaults. -/
def defaultPort (i : Nat) : Port :=
  { portId := i, linkedNode := none, macAddress := none, ipAddress := none,
    vlan := 1, status := "down", l3Enabled := false, mode := "access",
    speedMbps := 100 }

structure L3If where
  name : String
  ipAddress : String
  vlan : Option Nat
  portId : Option Nat
  macAddress : Option String
deriving DecidableEq

/-- Packet payloads: the source uses a dict with a `"type"` key; anything
else (including `None`) is `other`. -/
inductive Payload
  | ping (seq : Nat)
  | pingReply (seq : Nat)
  | arpRequest (targetIp : String)
  | arpReply (mac : String)
  | other
deriving DecidableEq

structure Packet where
  srcIp : String
  dstIp : String
  srcMac : String
  dstMac : String
  payload : Payload
deriving DecidableEq

/-- The state of one `OmniSwitch`.  `graphNodes` is the node set of the
per-switch `self.graph`; the `"object"` attributes are resolved through
the lab-wide registry (a `List (String × Switch)`) in the functions
below.  `connectedSubnets` and the VLAN port sets are Python sets,
modelled as lists in insertion order. -/
structure Switch where
  name : String
  ports : List (Nat × Port)
  macTable : List (String × Int)
  routingTable : RoutingTable
  arpTable : List (String × String × Int)
  l3Interfaces : List (String × L3If)
  vlans : List (Nat × List Nat)
  graphNodes : List String
  lsdb : List (String × List (String × Nat))
  ospfRoutes : List (String × String × Nat)
  connectedSubnets : List String
  arpQueue : List (String × List (Packet × Nat × ℚ))
  arpReqTimes : List (String × ℚ)
deriving DecidableEq

/-- `OmniSwitch.__init__`: 24 default ports, empty tables, the switch's
own name in its graph. -/
def initSwitch (name : String) : Switch :=
  { name := name,
    ports := (List.range 24).map (fun i => (i + 1, defaultPort (i + 1))),
    macTable := [], routingTable := [], arpTable := [], l3Interfaces := [],
    vlans := [], graphNodes := [name], lsdb := [], ospfRoutes := [],
    connectedSubnets := [], arpQueue := [], arpReqTimes := [] }

/-! ## Interface creation (claim C3) -/

/-- `OmniSwitch.create_vlan_interface`.  The randomly generated MAC is a
parameter.  A malformed CIDR makes `ip_interface` raise in the source;
the claims only use well-formed ones. -/
def createVlanInterface (sw : Switch) (vlanId : Nat) (ipWithPrefix : String)
    (mac : String) : Switch :=
  if (alookup sw.vlans vlanId).isNone then sw
  else
    match parseCidr ipWithPrefix with
    | none => sw
    | some n =>
        let iname := "VLAN" ++ toString vlanId
        let iface : L3If :=
          { name := iname, ipAddress := ipWithPrefix, vlan := some vlanId,
            portId := none, macAddress := some mac }
        let ip := ipStr n.addr
        { sw with
          l3Interfaces := ainsert sw.l3Interfaces iname iface,
          routingTable := ainsert sw.routingTable (netStrOf n) (ip, "connected"),
          arpTable := ainsert sw.arpTable ip (mac, -1),
          macTable := ainsert sw.macTable mac (-1) }

/-- `OmniSwitch.assign_l3_interface_to_port`. -/
def assignL3InterfaceToPort (sw : Switch) (portId : Nat)
    (ipWithPrefix : String) : Switch :=
  match alookup sw.ports portId with
  | none => sw
  | some p =>
      let iname := "Port" ++ toString portId
      let pNew := { p with l3Enabled := true, ipAddress := some ipWithPrefix }
      let ifNew : L3If :=
        { name := iname, ipAddress := ipWithPrefix, vlan := none,
          portId := some portId, macAddress := none }
      let sw1 := { sw with ports := ainsert sw.ports portId pNew }
      let sw2 := { sw1 with l3Interfaces := ainsert sw1.l3Interfaces iname ifNew }
      match parseCidr ipWithPrefix with
      | none => sw2
      | some n =>
          { sw2 with routingTable :=
              ainsert sw2.routingTable (netStrOf n) (iname, "connected") }

/-! ## ARP/MAC learning on receive (claim C7) -/

def isArpRequestP (p : Packet) : Bool :=
  match p.payload with | .arpRequest _ => true | _ => false

def isArpReplyP (p : Packet) : Bool :=
  match p.payload with | .arpReply _ => true | _ => false

/-- `OmniSwitch._learn_arp`. -/
def learnArp (sw : Switch) (p : Packet) (inPort : Option Nat) : Switch :=
  match inPort with
  | none => sw
  | some pid =>
      if (alookup sw.ports pid).isNone then sw
      else if ¬ isArpRequestP p ∧ ¬ isArpReplyP p then sw
      else
        { sw with
          arpTable := ainsert sw.arpTable p.srcIp (p.srcMac, (pid : Int)),
          macTable := ainsert sw.macTable p.srcMac (pid : Int) }

/-- The learning phase of `OmniSwitch.receive_packet`: the TTL guard
(`if ttl <= 1: return False`) followed by `_learn_arp`.  The later
per-payload dispatch does not write these two tables (for an arp-reply,
`_handle_arp_reply` re-writes the identical entries). -/
def receiveLearnPhase (sw : Switch) (p : Packet) (ttl : Nat)
    (inPort : Option Nat) : Switch :=
  if ttl ≤ 1 then sw else learnArp sw p inPort

/-! ## ARP resolution and queueing (claim C8) -/

/-- What the connected/indirect handlers do besides mutating local
state. -/
inductive FwdAction
  | queuedWithRequest
  | queuedNoRequest
  | forwarded (dstMac : String) (portId : Int)
  | invalidPort
deriving DecidableEq

/-- `OmniSwitch._valid_port` (the port-validity test; the neighbor
object resolution is cross-switch and irrelevant to the local state). -/
def validPort (sw : Switch) (portId : Int) : Option Port :=
  match (if 0 ≤ portId then alookup sw.ports portId.toNat else none) with
  | none => none
  | some p =>
      if p.status = "up" ∧ p.linkedNode.isSome then some p else none

/-- The request-sending test `not last_sent or current_time - last_sent > 1`
(`last_sent` is falsy when missing or when the timestamp is `0.0`). -/
def arpNeedSend (times : List (String × ℚ)) (ip : String) (now : ℚ) : Bool :=
  match alookup times ip with
  | none => true
  | some t => decide (t = 0 ∨ now - t > 1)

/-- The ARP-miss branch shared by `_handle_connected_route` and
`_handle_indirect_route`: rate-limited request plus enqueue.  `ip` is
the address being resolved, `now` is `time.time()`. -/
def arpMissStep (sw : Switch) (ip : String) (p : Packet) (ttl : Nat)
    (now : ℚ) : Switch × FwdAction :=
  let send := arpNeedSend sw.arpReqTimes ip now
  let sw1 := if send then
      { sw with arpReqTimes := ainsert sw.arpReqTimes ip now } else sw
  let oldq := (alookup sw1.arpQueue ip).getD []
  ({ sw1 with arpQueue := ainsert sw1.arpQueue ip (oldq ++ [(p, ttl, now)]) },
   if send then .queuedWithRequest else .queuedNoRequest)

/-- `OmniSwitch._handle_connected_route`: resolve the destination IP
itself. -/
def handleConnectedRoute (sw : Switch) (p : Packet) (ttl : Nat)
    (now : ℚ) : Switch × FwdAction :=
  match alookup sw.arpTable p.dstIp with
  | none => arpMissStep sw p.dstIp p ttl now
  | some (mac, pid) =>
      match validPort sw pid with
      | none => (sw, .invalidPort)
      | some _ => (sw, .forwarded mac pid)

/-- `OmniSwitch._handle_indirect_route`: resolve the next-hop IP of a
static/ospf route. -/
def handleIndirectRoute (sw : Switch) (p : Packet) (nextHop : String)
    (ttl : Nat) (now : ℚ) : Switch × FwdAction :=
  match alookup sw.arpTable nextHop with
  | none => arpMissStep sw nextHop p ttl now
  | some (mac, pid) =>
      match validPort sw pid with
      | none => (sw, .invalidPort)
      | some _ => (sw, .forwarded mac pid)

/-! ## The lab supervisor (claim C9) -/

/-- One endpoint mutation of `NetworkLabCLI.link`:
`switches[swName].ports[portId].linked_node = peer; .status = "up"`. -/
def setPortLink (lab : List (String × Switch)) (swName : String)
    (portId : Nat) (peer : String) : List (String × Switch) :=
  match alookup lab swName with
  | none => lab
  | some s =>
      match alookup s.ports portId with
      | none => lab
      | some p =>
          let pNew := { p with linkedNode := some peer, status := "up" }
          ainsert lab swName ({ s with ports := ainsert s.ports portId pNew })

/-- `switches[swName].graph.add_node(node, object=...)`: record the node
name (re-adding an existing node is a no-op on the name set). -/
def addGraphNode (lab : List (String × Switch)) (swName node : String) :
    List (String × Switch) :=
  match alookup lab swName with
  | none => lab
  | some s =>
      if node ∈ s.graphNodes then lab
      else ainsert lab swName { s with graphNodes := s.graphNodes ++ [node] }

/-- `NetworkLabCLI.link(sw1, p1, sw2, p2)`: guarded only by the existence
of both switches; the four mutations run in source order. -/
def linkOp (lab : List (String × Switch)) (sw1 : String) (p1 : Nat)
    (sw2 : String) (p2 : Nat) : List (String × Switch) :=
  if (alookup lab sw1).isSome ∧ (alookup lab sw2).isSome then
    addGraphNode (addGraphNode (setPortLink (setPortLink lab sw1 p1 sw2)
      sw2 p2 sw1) sw1 sw2) sw2 sw1
  else lab

/-! ## OSPF: LSDB graph, Dijkstra, route computation

`calculate_routes` builds an undirected weighted `networkx` graph from
the LSDB, runs `single_source_dijkstra_path`, and installs one route per
connected subnet of each reachable router.  The graph is an edge list in
`add_edge` order; re-adding an edge (in either orientation) overwrites
its weight, as in `networkx`. -/

abbrev Lsdb := List (String × List (String × Nat))

abbrev Graph := List (String × String × Nat)

def addEdge : Graph → String → String → Nat → Graph
  | [], u, v, w => [(u, v, w)]
  | e :: rest, u, v, w =>
      if (e.1 = u ∧ e.2.1 = v) ∨ (e.1 = v ∧ e.2.1 = u) then
        (e.1, e.2.1, w) :: rest
      else e :: addEdge rest u v w

/-- The two nested loops `for router, links in lsdb.items(): for neighbor,
cost in links.items(): G.add_edge(router, neighbor, weight=cost)`. -/
def buildGraph (lsdb : Lsdb) : Graph :=
  lsdb.foldl (fun g rl => rl.2.foldl (fun g2 nc => addEdge g2 rl.1 nc.1 nc.2) g) []

/-- The loop variable `cost` as left over after those loops: the cost of
the last LSDB edge iterated.  `calculate_routes` later installs routes
with this stale value. -/
def lastLsdbCost (lsdb : Lsdb) : Option Nat :=
  lsdb.foldl (fun acc rl => rl.2.foldl (fun _ nc => some nc.2) acc) none

def nodesOf (G : Graph) : List String :=
  G.foldl
    (fun acc e =>
      let acc1 := if e.1 ∈ acc then acc else acc ++ [e.1]
      if e.2.1 ∈ acc1 then acc1 else acc1 ++ [e.2.1])
    []

def neighborsOf (G : Graph) (u : String) : List (String × Nat) :=
  G.filterMap
    (fun e =>
      if e.1 = u then some (e.2.1, e.2.2)
      else if e.2.1 = u then some (e.1, e.2.2) else none)

/-- Frontier entry update: keep at most one tentative entry per node,
lowering its distance when the candidate is better. -/
def updateEntry : List (String × Nat × List String) → String × Nat × List String →
    List (String × Nat × List String)
  | [], c => [c]
  | x :: xs, c =>
      if x.1 = c.1 then (if c.2.1 < x.2.1 then c :: xs else x :: xs)
      else x :: updateEntry xs c

def extractMin : List (String × Nat × List String) →
    Option ((String × Nat × List String) × List (String × Nat × List String))
  | [] => none
  | x :: xs =>
      match extractMin xs with
      | none => some (x, [])
      | some (m, rest) =>
          if x.2.1 ≤ m.2.1 then some (x, xs) else some (m, x :: rest)

def relaxAll (G : Graph) (u : String × Nat × List String)
    (visitedNames : List String)
    (frontier : List (String × Nat × List String)) :
    List (String × Nat × List String) :=
  (neighborsOf G u.1).foldl
    (fun fr nb =>
      if nb.1 ∈ visitedNames then fr
      else updateEntry fr (nb.1, u.2.1 + nb.2, u.2.2 ++ [nb.1]))
    frontier

def dijkstraAux (G : Graph) :
    Nat → List (String × Nat × List String) →
    List (String × Nat × List String) → List (String × Nat × List String)
  | 0, visited, _ => visited
  | Nat.succ fuel, visited, frontier =>
      match extractMin frontier with
      | none => visited
      | some (u, rest) =>
          dijkstraAux G fuel (visited ++ [u])
            (relaxAll G u ((visited ++ [u]).map (fun e => e.1)) rest)

/-- `nx.single_source_dijkstra_path` (with distances kept): entries
`(node, dist, path)` in finalization order.  The claims evaluate it only
on graphs whose shortest paths are unique, where any tie-breaking policy
yields the same paths. -/
def dijkstra (G : Graph) (src : String) : List (String × Nat × List String) :=
  dijkstraAux G ((nodesOf G).length + 1) [] [(src, 0, [src])]

/-- The distance computed by Dijkstra from `src` to `dst`. -/
def distTo (G : Graph) (src dst : String) : Option Nat :=
  ((dijkstra G src).find? (fun e => e.1 = dst)).map (fun e => e.2.1)

/-- `str(ip_interface(s).ip)`. -/
def ifaceIpStr (s : String) : Option String :=
  (parseCidr s).map (fun n => ipStr n.addr)

/-- `OmniSwitch._get_next_hop_ip_to`.  The `"object"` attributes of the
per-switch graphs are resolved through the lab registry `net`; in the
source a router missing from the graph raises `KeyError`, which cannot
happen in the linked topologies the claims quantify over. -/
def getNextHopIpTo (net : List (String × Switch)) (sw : Switch)
    (neighborName : String) : Option String :=
  let portBased := sw.l3Interfaces.findSome? (fun ni =>
    match ni.2.portId with
    | none => none
    | some pid =>
        match alookup sw.ports pid with
        | none => none
        | some port =>
            if port.linkedNode = some neighborName then
              match alookup net neighborName with
              | none => none
              | some nbr =>
                  nbr.l3Interfaces.findSome? (fun mi =>
                    match mi.2.portId with
                    | none => none
                    | some mpid =>
                        match alookup nbr.ports mpid with
                        | none => none
                        | some mport =>
                            if mport.linkedNode = some sw.name then
                              ifaceIpStr mi.2.ipAddress
                            else none)
            else none)
  match portBased with
  | some ip => some ip
  | none =>
      sw.l3Interfaces.findSome? (fun ni =>
        match ni.2.vlan with
        | none => none
        | some v =>
            match alookup sw.vlans v with
            | none => none
            | some vports =>
                vports.findSome? (fun pid =>
                  match alookup sw.ports pid with
                  | none => none
                  | some port =>
                      if port.linkedNode = some neighborName then
                        match alookup net neighborName with
                        | none => none
                        | some nbr =>
                            nbr.l3Interfaces.findSome? (fun mi =>
                              if mi.2.vlan = some v then
                                ifaceIpStr mi.2.ipAddress
                              else none)
                      else none))

/-- `OSPFEngine.calculate_routes(current_switch)`.  Note the stale
`cost`: the loop that installs routes reuses the variable left over from
the graph-building loops (`lastLsdbCost`), not the Dijkstra path cost. -/
def calculateRoutes (net : List (String × Switch)) (sw : Switch) :
    List (String × String × Nat) :=
  let G := buildGraph sw.lsdb
  if sw.name ∈ nodesOf G then
    let paths := dijkstra G sw.name
    let leaked := (lastLsdbCost sw.lsdb).getD 0
    paths.foldl
      (fun rt entry =>
        if entry.1 = sw.name then rt
        else
          match entry.2.2 with
          | [] => rt
          | [_] => rt
          | _ :: nextHopRouter :: _ =>
              match getNextHopIpTo net sw nextHopRouter with
              | none => rt
              | some nhIp =>
                  if entry.1 ∈ sw.graphNodes then
                    match alookup net entry.1 with
                    | none => rt
                    | some nbr =>
                        nbr.connectedSubnets.foldl
                          (fun rt2 subnet =>
                            if (alookup rt2 subnet).isSome then rt2
                            else ainsert rt2 subnet (nhIp, leaked))
                          rt
                  else rt)
      []
  else sw.ospfRoutes

/-! ## LSA reception and flooding -/

/-- The state update of `receive_lsa` when the LSA is new: store it,
recompute the OSPF table, redistribute into the routing table. -/
def applyLsa (net : List (String × Switch)) (sw : Switch) (origin : String)
    (lsa : List (String × Nat)) : Switch :=
  let sw1 := { sw with lsdb := ainsert sw.lsdb origin lsa }
  let sw2 := { sw1 with ospfRoutes := calculateRoutes net sw1 }
  { sw2 with routingTable :=
      redistributeOspfRoutes sw2.routingTable sw2.ospfRoutes }

/-- The flooding loop of `receive_lsa`: names of `linked_node` on every
up port whose peer is not `from_node` (split horizon on the origin). -/
def lsaForwardTargets (sw : Switch) (fromNode : String) : List String :=
  sw.ports.filterMap (fun pp =>
    match pp.2.linkedNode with
    | none => none
    | some n => if pp.2.status = "up" ∧ n ≠ fromNode then some n else none)

/-- The send loop of `exchange_ospf_lsa`: every up-linked neighbor. -/
def upLinkedNeighbors (sw : Switch) : List String :=
  sw.ports.filterMap (fun pp =>
    match pp.2.linkedNode with
    | none => none
    | some n => if pp.2.status = "up" then some n else none)

/-- One `receive_lsa` call viewed locally: the updated switch and the
list of neighbors the LSA is forwarded to. -/
def receiveLsaStep (net : List (String × Switch)) (sw : Switch)
    (fromNode : String) (lsa : List (String × Nat)) : Switch × List String :=
  if alookup sw.lsdb fromNode = some lsa then (sw, [])
  else
    let sw2 := applyLsa net sw fromNode lsa
    (sw2, lsaForwardTargets sw2 fromNode)

/-- The full recursive flooding of `receive_lsa` across the lab: `tgt`
receives `lsa` (originated by `origin`) from `sender`; on a change it
stores, recomputes and recursively forwards.  Returns the final lab and
the chronological list of flood events `(sender, receiver)` — one event
per `receive_lsa` call that stored a new LSA.  `fuel` bounds the call
depth; the claims show a fuel beyond the switch count never matters. -/
def floodLsa : Nat → List (String × Switch) → String → List (String × Nat) →
    String → String → (List (String × Switch)) × List (String × String)
  | 0, net, _, _, _, _ => (net, [])
  | Nat.succ fuel, net, origin, lsa, sender, tgt =>
      match alookup net tgt with
      | none => (net, [])
      | some sw =>
          if alookup sw.lsdb origin = some lsa then (net, [])
          else
            let sw2 := applyLsa net sw origin lsa
            let net1 := ainsert net tgt sw2
            (lsaForwardTargets sw2 origin).foldl
              (fun acc t =>
                let r := floodLsa fuel acc.1 origin lsa tgt t
                (r.1, acc.2 ++ r.2))
              (net1, [(sender, tgt)])

/-- `exchange_ospf_lsa` on `origin`: send `lsdb[origin]` to each up-linked
neighbor (each send is a `receive_lsa`, i.e. a `floodLsa` call). -/
def exchangeLsa (fuel : Nat) (net : List (String × Switch))
    (origin : String) : (List (String × Switch)) × List (String × String) :=
  match alookup net origin with
  | none => (net, [])
  | some osw =>
      match alookup osw.lsdb origin with
      | none => (net, [])
      | some myLsa =>
          (upLinkedNeighbors osw).foldl
            (fun acc t =>
              let r := floodLsa fuel acc.1 origin myLsa origin t
              (r.1, acc.2 ++ r.2))
            (net, [])

/-- All directed `(switch, linked peer)` pairs of the lab. -/
def directedLinks (net : List (String × Switch)) : List (String × String) :=
  net.flatMap (fun e =>
    e.2.ports.filterMap (fun pp => pp.2.linkedNode.map (fun n => (e.1, n))))

/-- The links of the lab as unordered pairs, deduplicated. -/
def linkPairs (net : List (String × Switch)) : List (Sym2 String) :=
  ((directedLinks net).map (fun pr => Sym2.mk pr)).dedup

/-- The number of links of the lab. -/
def linkCount (net : List (String × Switch)) : Nat := (linkPairs net).length

/-! ## Notions for the flooding analysis (claim C6) -/

/-- The switch already stores `lsa` as `origin`'s LSA — the condition
under which `receive_lsa` does nothing. -/
def storesLsa (origin : String) (lsa : List (String × Nat)) (sw : Switch) :
    Prop :=
  alookup sw.lsdb origin = some lsa

instance (origin : String) (lsa : List (String × Nat)) (sw : Switch) :
    Decidable (storesLsa origin lsa sw) :=
  inferInstanceAs (Decidable (alookup sw.lsdb origin = some lsa))

/-- Number of lab entries whose switch does not yet store the LSA: the
decreasing measure of the flood. -/
def badCount (origin : String) (lsa : List (String × Nat))
    (net : List (String × Switch)) : Nat :=
  (net.filter (fun e => !(decide (storesLsa origin lsa e.2)))).length

/-- Every switch registered under `x` (there is at most one visible to
`alookup`) stores the LSA. -/
def lookupGood (origin : String) (lsa : List (String × Nat))
    (net : List (String × Switch)) (x : String) : Prop :=
  ∀ sw, alookup net x = some sw → storesLsa origin lsa sw

/-- Event-list sanity: every event's sender is the root sender or an
earlier event's receiver (flooding only propagates from switches that
already processed the LSA). -/
def okEvents : List String → List (String × String) → Prop
  | _, [] => True
  | allowed, e :: rest => e.1 ∈ allowed ∧ okEvents (e.2 :: allowed) rest

/-- Entry-wise evolution during a flood: the keys and their order are
unchanged, every switch keeps its ports, and storing the LSA is
monotone. -/
def evolves (origin : String) (lsa : List (String × Nat))
    (a b : List (String × Switch)) : Prop :=
  List.Forall₂
    (fun x y => x.1 = y.1 ∧ y.2.ports = x.2.ports ∧
      (storesLsa origin lsa x.2 → storesLsa origin lsa y.2)) a b

/-- `s` has a port linked to `t` in the lab. -/
def portLinked (net : List (String × Switch)) (s t : String) : Prop :=
  (s, t) ∈ directedLinks net

/-- Invariant of a flood run started from root sender `root` over the
initial lab `net`, for a result state `st = (final lab, events)`: the lab
evolved monotonically; no switch received the LSA twice; every event's
receiver lacked the LSA in `net` and stores it afterwards; every event
travels over a link of `net`; and events propagate outward from `root`. -/
def FloodInv (o : String) (l : List (String × Nat)) (root : String)
    (net : List (String × Switch))
    (st : (List (String × Switch)) × List (String × String)) : Prop :=
  evolves o l net st.1 ∧
  (st.2.map Prod.snd).Nodup ∧
  (∀ r ∈ st.2.map Prod.snd,
    (∃ sw, alookup net r = some sw ∧ ¬ storesLsa o l sw) ∧
    lookupGood o l st.1 r) ∧
  (∀ e ∈ st.2, portLinked net e.1 e.2) ∧
  okEvents [root] st.2

/-! ## Concrete fixtures used by the evaluated theorems -/

/-- An ARP request from `10.0.0.5` looking for `10.0.0.9`. -/
def sampleArpReq : Packet :=
  { srcIp := "10.0.0.5", dstIp := "10.0.0.9", srcMac := "aa:aa:aa:aa:aa:01",
    dstMac := "ff:ff:ff:ff:ff:ff", payload := .arpRequest "10.0.0.9" }

/-- A ping from `10.0.0.5` to the unresolved `10.0.0.9`. -/
def samplePing : Packet :=
  { srcIp := "10.0.0.5", dstIp := "10.0.0.9", srcMac := "aa:aa:aa:aa:aa:01",
    dstMac := "ff:ff:ff:ff:ff:ff", payload := .ping 1 }

/-- A fresh switch on which VLAN 1 has been created. -/
def swWithVlan1 : Switch := { initSwitch "sw1" with vlans := [(1, [])] }

/-- A fresh switch that sent an ARP request for `10.0.0.9` at time 2. -/
def swRateLimited : Switch :=
  { initSwitch "sw1" with arpReqTimes := [("10.0.0.9", (2 : ℚ))] }

/-- A three-switch lab, not yet linked. -/
def lab3 : List (String × Switch) :=
  [("sw1", initSwitch "sw1"), ("sw2", initSwitch "sw2"),
   ("sw3", initSwitch "sw3")]

/-- Hub switch `S` of a converged star `S–B` (cost 2, via ports 1) and
`S–C` (cost 10, via ports 2), with port-scoped L3 interfaces and the full
LSDB; the last LSDB edge iterated is `C → S` with cost 10. -/
def swS2 : Switch :=
  let p1 := { defaultPort 1 with linkedNode := some "B", status := "up" }
  let p2 := { defaultPort 2 with linkedNode := some "C", status := "up" }
  { initSwitch "S" with
    ports := ainsert (ainsert (initSwitch "S").ports 1 p1) 2 p2,
    l3Interfaces :=
      [("Port1", { name := "Port1", ipAddress := "10.0.1.1/30",
                   vlan := none, portId := some 1, macAddress := none }),
       ("Port2", { name := "Port2", ipAddress := "10.0.2.1/30",
                   vlan := none, portId := some 2, macAddress := none })],
    lsdb := [("S", [("B", 2), ("C", 10)]), ("B", [("S", 2)]),
             ("C", [("S", 10)])],
    graphNodes := ["S", "B", "C"] }

/-- Spoke `B` of the star: linked back to `S` on port 1, owning subnet
`20.0.0.0/24`. -/
def swB2 : Switch :=
  let p1 := { defaultPort 1 with linkedNode := some "S", status := "up" }
  { initSwitch "B" with
    ports := ainsert (initSwitch "B").ports 1 p1,
    l3Interfaces :=
      [("Port1", { name := "Port1", ipAddress := "10.0.1.2/30",
                   vlan := none, portId := some 1, macAddress := none })],
    connectedSubnets := ["20.0.0.0/24"],
    graphNodes := ["B", "S"] }

/-- Spoke `C` of the star: linked back to `S` on port 2, owning subnet
`30.0.0.0/24`. -/
def swC2 : Switch :=
  let p2 := { defaultPort 2 with linkedNode := some "S", status := "up" }
  { initSwitch "C" with
    ports := ainsert (initSwitch "C").ports 2 p2,
    l3Interfaces :=
      [("Port2", { name := "Port2", ipAddress := "10.0.2.2/30",
                   vlan := none, portId := some 2, macAddress := none })],
    connectedSubnets := ["30.0.0.0/24"],
    graphNodes := ["C", "S"] }

/-- The converged star lab used against `calculate_routes`. -/
def netStar : List (String × Switch) :=
  [("S", swS2), ("B", swB2), ("C", swC2)]

/-! ## Generic lemmas about the routing-table operations -/

theorem lookupRoute_eq_find (rt : RoutingTable) (dst : String) :
    lookupRoute rt dst =
      (rt.find? (fun p => cidrContains p.1 dst)).map Prod.snd := by
  induction rt with
  | nil => simp [lookupRoute]
  | cons hd tl ih =>
      by_cases h : cidrContains hd.1 dst
      · simp [lookupRoute, List.find?, h]
      · simp only [lookupRoute, h, if_false, ih, List.find?]
        simp [h]

theorem lookupRoute_none_iff (rt : RoutingTable) (dst : String) :
    lookupRoute rt dst = none ↔ ∀ p ∈ rt, cidrContains p.1 dst = false := by
  induction rt with
  | nil => simp [lookupRoute]
  | cons hd tl ih =>
      by_cases h : cidrContains hd.1 dst
      · simp [lookupRoute, h]
      · simp [lookupRoute, h, ih]

theorem redistribute_lookup (o : List (String × String × Nat))
    (acc : RoutingTable) (k : String) :
    (∀ v, alookup acc k = some v →
        alookup (redistributeOspfRoutes acc o) k = some v) ∧
    (∀ v, alookup (redistributeOspfRoutes acc o) k = some v →
        alookup acc k = some v ∨ v.2 = "ospf") := by
  induction o generalizing acc with
  | nil => exact ⟨fun v h => h, fun v h => Or.inl h⟩
  | cons p o ih =>
      simp only [redistributeOspfRoutes, List.foldl_cons] at ih ⊢
      by_cases hp : (alookup acc p.1).isSome
      · simpa [hp] using ih acc
      · simp only [hp, if_false]
        constructor
        · intro v hv
          have hne : p.1 ≠ k := by
            intro he
            rw [he, hv] at hp
            simp at hp
          have := (ih (ainsert acc p.1 (p.2.1, "ospf"))).1 v
          rw [alookup_ainsert_ne acc p.1 k _ hne] at this
          exact this hv
        · intro v hv
          rcases (ih (ainsert acc p.1 (p.2.1, "ospf"))).2 v hv with h1 | h2
          · rw [alookup_ainsert] at h1
            by_cases he : p.1 = k
            · simp [he] at h1
              right
              rw [h1.symm]
            · simp [he] at h1
              exact Or.inl h1
          · exact Or.inr h2

/-! ## Claim C1 -/

/-- C1 (counterexample): the routing lookup used by `send_packet` is not
longest-prefix match.  With `10.0.0.0/8` inserted before `10.0.0.0/24`,
`_lookup_route("10.0.0.1")` returns the `/8` entry although the `/24`
entry also contains the address with a strictly longer prefix. -/
theorem lookupRoute_not_lpm_at_ex :
    lookupRoute [("10.0.0.0/8", ("1.1.1.1", "static")),
                 ("10.0.0.0/24", ("2.2.2.2", "static"))] "10.0.0.1" =
      some ("1.1.1.1", "static") ∧
    ¬ isLpmResult [("10.0.0.0/8", ("1.1.1.1", "static")),
                   ("10.0.0.0/24", ("2.2.2.2", "static"))] "10.0.0.1"
        (lookupRoute [("10.0.0.0/8", ("1.1.1.1", "static")),
                      ("10.0.0.0/24", ("2.2.2.2", "static"))] "10.0.0.1") := by
  have h1 : lookupRoute [("10.0.0.0/8", ("1.1.1.1", "static")),
      ("10.0.0.0/24", ("2.2.2.2", "static"))] "10.0.0.1" =
      some ("1.1.1.1", "static") := by decide
  refine ⟨h1, ?hnot⟩
  rw [h1]
  intro h
  simp only [isLpmResult] at h
  revert h
  decide

/-- C1 (amended): `_lookup_route` returns the first entry in routing-table
insertion order whose network contains the destination address, regardless
of prefix length or provenance; it returns no route exactly when no
entry's network contains the address. -/
theorem lookupRoute_first_match (rt : RoutingTable) (dst : String) :
    lookupRoute rt dst =
        (rt.find? (fun p => cidrContains p.1 dst)).map Prod.snd ∧
    (lookupRoute rt dst = none ↔ ∀ p ∈ rt, cidrContains p.1 dst = false) :=
  ⟨lookupRoute_eq_find rt dst, lookupRoute_none_iff rt dst⟩

/-- C1 witness: the amended characterization evaluated at a concrete
table and destination. -/
theorem lookupRoute_first_match_witness :
    lookupRoute [("10.0.0.0/8", ("1.1.1.1", "static")),
                 ("10.0.0.0/24", ("2.2.2.2", "static"))] "10.0.0.1" =
      (List.find? (fun p => cidrContains p.1 "10.0.0.1")
          [("10.0.0.0/8", ("1.1.1.1", "static")),
           ("10.0.0.0/24", ("2.2.2.2", "static"))]).map Prod.snd :=
  (lookupRoute_first_match _ "10.0.0.1").1

/-! ## Claim C10 -/

/-- C10: `add_route` (the `ip static-route` handler) unconditionally
overwrites the entry for the given CIDR with `(next_hop, "static")` —
whatever provenance it had — and leaves every other CIDR's entry
unchanged. -/
theorem addRoute_overwrites (rt : RoutingTable) (cidr nextHop k : String) :
    alookup (addRoute rt cidr nextHop) k =
      if cidr = k then some (nextHop, "static") else alookup rt k :=
  alookup_ainsert rt cidr k (nextHop, "static")

/-! ## Claim C4 -/

/-- C4: `redistribute_ospf_routes` never overwrites: every network already
mapped in the routing table keeps its exact `(next_hop, provenance)` pair,
and any network newly present afterwards carries provenance `"ospf"`. -/
theorem redistribute_never_overwrites (rt : RoutingTable)
    (o : List (String × String × Nat)) (k : String) :
    (∀ v, alookup rt k = some v →
        alookup (redistributeOspfRoutes rt o) k = some v) ∧
    (alookup rt k = none →
        ∀ v, alookup (redistributeOspfRoutes rt o) k = some v →
          v.2 = "ospf") := by
  refine ⟨(redistribute_lookup o rt k).1, fun hnone v hv => ?hv⟩
  rcases (redistribute_lookup o rt k).2 v hv with h | h
  · rw [hnone] at h
    exact absurd h (by simp)
  · exact h

/-- C4 witness: a `connected` entry survives redistribution verbatim and a
fresh network arrives as `"ospf"`. -/
theorem redistribute_never_overwrites_witness :
    alookup (redistributeOspfRoutes [("10.0.0.0/24", ("10.0.0.1", "connected"))]
        [("10.0.0.0/24", ("9.9.9.9", 5)), ("20.0.0.0/24", ("10.0.0.2", 7))])
        "10.0.0.0/24" = some ("10.0.0.1", "connected") ∧
    ∀ v, alookup (redistributeOspfRoutes
          [("10.0.0.0/24", ("10.0.0.1", "connected"))]
          [("10.0.0.0/24", ("9.9.9.9", 5)), ("20.0.0.0/24", ("10.0.0.2", 7))])
        "20.0.0.0/24" = some v → v.2 = "ospf" := by
  constructor
  · exact (redistribute_never_overwrites
      [("10.0.0.0/24", ("10.0.0.1", "connected"))]
      [("10.0.0.0/24", ("9.9.9.9", 5)), ("20.0.0.0/24", ("10.0.0.2", 7))]
      "10.0.0.0/24").1 _ (by decide)
  · exact (redistribute_never_overwrites
      [("10.0.0.0/24", ("10.0.0.1", "connected"))]
      [("10.0.0.0/24", ("9.9.9.9", 5)), ("20.0.0.0/24", ("10.0.0.2", 7))]
      "20.0.0.0/24").2 (by decide)


/-! ## Claim C3 -/

/-- C3 (counterexample): after `assign_l3_interface_to_port(1, "10.0.0.1/24")`
the connected route's next hop is the literal string `"Port1"`, not the IP
address `"10.0.0.1"` of the newly created local L3 interface. -/
theorem assignL3_next_hop_not_interface_ip :
    (alookup (assignL3InterfaceToPort (initSwitch "sw1") 1 "10.0.0.1/24").routingTable
        "10.0.0.0/24" = some ("Port1", "connected")) ∧
    ((alookup (assignL3InterfaceToPort (initSwitch "sw1") 1 "10.0.0.1/24").l3Interfaces
        "Port1").map L3If.ipAddress = some "10.0.0.1/24") ∧
    ((parseCidr "10.0.0.1/24").map (fun n => ipStr n.addr) = some "10.0.0.1") ∧
    "Port1" ≠ "10.0.0.1" := by
  refine ⟨by decide, by decide, by decide, by decide⟩

/-- C3 (amended): `create_vlan_interface` installs a connected route whose
next hop is the IP address of the newly created local interface, while
`assign_l3_interface_to_port` installs a connected route whose next hop is
the literal interface name `"Port<id>"`, not an IP address. -/
theorem connected_route_next_hops (sw : Switch) (vlanId portId : Nat)
    (s mac : String) (n : IPNet)
    (hv : (alookup sw.vlans vlanId).isSome)
    (hs : parseCidr s = some n)
    (hp : (alookup sw.ports portId).isSome) :
    (alookup (createVlanInterface sw vlanId s mac).routingTable (netStrOf n) =
        some (ipStr n.addr, "connected") ∧
      (alookup (createVlanInterface sw vlanId s mac).l3Interfaces
          ("VLAN" ++ toString vlanId)).map L3If.ipAddress = some s) ∧
    (alookup (assignL3InterfaceToPort sw portId s).routingTable (netStrOf n) =
        some ("Port" ++ toString portId, "connected")) := by
  refine ⟨⟨?cr, ?ci⟩, ?ar⟩
  case cr =>
    rw [createVlanInterface]
    rcases Option.isSome_iff_exists.mp hv with ⟨v, hv2⟩
    simp only [hv2, Option.isNone_some, Bool.false_eq_true, if_false, hs]
    exact alookup_ainsert_self _ _ _
  case ci =>
    rw [createVlanInterface]
    rcases Option.isSome_iff_exists.mp hv with ⟨v, hv2⟩
    simp only [hv2, Option.isNone_some, Bool.false_eq_true, if_false, hs]
    rw [alookup_ainsert_self]
    rfl
  case ar =>
    rw [assignL3InterfaceToPort]
    rcases Option.isSome_iff_exists.mp hp with ⟨q, hq⟩
    simp only [hq, hs]
    exact alookup_ainsert_self _ _ _

/-- C3 witness: the amended statement at a fresh switch carrying VLAN 1,
with `10.1.1.1/24` (address `167837953`). -/
theorem connected_route_next_hops_witness :
    (alookup (createVlanInterface swWithVlan1 1 "10.1.1.1/24"
        "aa:bb:cc:dd:ee:01").routingTable (netStrOf ⟨167837953, 24⟩) =
      some (ipStr 167837953, "connected") ∧
      (alookup (createVlanInterface swWithVlan1 1 "10.1.1.1/24"
          "aa:bb:cc:dd:ee:01").l3Interfaces
          ("VLAN" ++ toString 1)).map L3If.ipAddress = some "10.1.1.1/24") ∧
    (alookup (assignL3InterfaceToPort swWithVlan1 2 "10.1.1.1/24").routingTable
        (netStrOf ⟨167837953, 24⟩) = some ("Port" ++ toString 2, "connected")) :=
  connected_route_next_hops swWithVlan1 1 2 "10.1.1.1/24" "aa:bb:cc:dd:ee:01"
    ⟨167837953, 24⟩ (by decide) (by decide) (by decide)

/-! ## Claim C7 -/

/-- C7 (counterexample): a packet received with `ttl = 1` on a valid port
with an ARP payload is dropped by the TTL guard before `_learn_arp`, so
nothing is recorded, contrary to the claim's unconditional learning. -/
theorem receive_no_learning_at_ttl_one :
    isArpRequestP sampleArpReq = true ∧
    (alookup (initSwitch "sw1").ports 1).isSome = true ∧
    receiveLearnPhase (initSwitch "sw1") sampleArpReq 1 (some 1) =
      initSwitch "sw1" ∧
    alookup (receiveLearnPhase (initSwitch "sw1") sampleArpReq 1
        (some 1)).arpTable "10.0.0.5" = none := by
  refine ⟨by decide, by decide, by decide, by decide⟩

/-- C7 (amended): for every packet received on a valid in-port with
`ttl > 1`, an ARP request/reply payload makes the switch record
`arp_table[src_ip] = (src_mac, port)` and `mac_table[src_mac] = port`
(so the learned ARP entry's port is a valid port id and its mac-to-port
pair is in the MAC table), while any other payload leaves both learning
tables unchanged. -/
theorem receive_learning_rules (sw : Switch) (p : Packet) (ttl pid : Nat)
    (hport : (alookup sw.ports pid).isSome) (httl : 1 < ttl) :
    ((isArpRequestP p = true ∨ isArpReplyP p = true) →
      alookup (receiveLearnPhase sw p ttl (some pid)).arpTable p.srcIp =
          some (p.srcMac, (pid : Int)) ∧
        alookup (receiveLearnPhase sw p ttl (some pid)).macTable p.srcMac =
          some (pid : Int)) ∧
    (isArpRequestP p = false → isArpReplyP p = false →
      receiveLearnPhase sw p ttl (some pid) = sw) := by
  have hguard : ¬ ttl ≤ 1 := by omega
  constructor
  · intro harp
    have hlearn : learnArp sw p (some pid) =
        { sw with
          arpTable := ainsert sw.arpTable p.srcIp (p.srcMac, (pid : Int)),
          macTable := ainsert sw.macTable p.srcMac (pid : Int) } := by
      rw [learnArp]
      have h1 : (alookup sw.ports pid).isNone = false := by
        rcases Option.isSome_iff_exists.mp hport with ⟨q, hq⟩
        simp [hq]
      rw [h1]
      simp only [Bool.false_eq_true, if_false]
      rcases harp with h | h <;> simp [h]
    rw [receiveLearnPhase, if_neg hguard, hlearn]
    exact ⟨alookup_ainsert_self _ _ _, alookup_ainsert_self _ _ _⟩
  · intro h1 h2
    rw [receiveLearnPhase, if_neg hguard, learnArp]
    rcases Option.isSome_iff_exists.mp hport with ⟨q, hq⟩
    simp [hq, h1, h2]

/-- C7 witness: learning at `ttl = 2` on port 1 of a fresh switch. -/
theorem receive_learning_rules_witness :
    alookup (receiveLearnPhase (initSwitch "sw1") sampleArpReq 2
        (some 1)).arpTable sampleArpReq.srcIp =
      some (sampleArpReq.srcMac, (1 : Int)) :=
  ((receive_learning_rules (initSwitch "sw1") sampleArpReq 2 1
      (by decide) (by decide)).1 (Or.inl (by decide))).1


/-! ## Claim C8 -/

theorem arpNeedSend_true_iff (times : List (String × ℚ)) (ip : String)
    (now : ℚ) :
    arpNeedSend times ip now = true ↔
      (alookup times ip = none ∨
        ∃ t, alookup times ip = some t ∧ (t = 0 ∨ now - t > 1)) := by
  rw [arpNeedSend]
  cases hT : alookup times ip with
  | none => simp
  | some t => simp [hT]

theorem arpMissStep_spec (sw : Switch) (ip : String) (p : Packet)
    (ttl : Nat) (now : ℚ) :
    ((arpMissStep sw ip p ttl now).2 = FwdAction.queuedWithRequest ∨
      (arpMissStep sw ip p ttl now).2 = FwdAction.queuedNoRequest) ∧
    ((arpMissStep sw ip p ttl now).2 = FwdAction.queuedWithRequest ↔
      arpNeedSend sw.arpReqTimes ip now = true) ∧
    alookup (arpMissStep sw ip p ttl now).1.arpQueue ip =
      some ((alookup sw.arpQueue ip).getD [] ++ [(p, ttl, now)]) ∧
    ((arpMissStep sw ip p ttl now).2 = FwdAction.queuedWithRequest →
      alookup (arpMissStep sw ip p ttl now).1.arpReqTimes ip = some now) ∧
    ((arpMissStep sw ip p ttl now).2 = FwdAction.queuedNoRequest →
      (arpMissStep sw ip p ttl now).1.arpReqTimes = sw.arpReqTimes) := by
  rw [arpMissStep]
  cases hS : arpNeedSend sw.arpReqTimes ip now with
  | true => simp [hS, alookup_ainsert_self]
  | false => simp [hS, alookup_ainsert_self]

/-- C8 (amended): when the address being resolved has no ARP entry, both
`_handle_connected_route` (for the destination IP) and
`_handle_indirect_route` (for the next-hop IP) always append the packet to
the per-IP pending queue; a new arp-request is broadcast exactly when no
previous request is recorded (or its timestamp is the falsy `0.0`) or when
strictly more than 1 second has elapsed — so a packet arriving 1 second or
less after the previous request is only enqueued, and two arp-requests for
the same IP are never broadcast within 1 second of each other. -/
theorem arp_request_rate_limited (sw : Switch) (p : Packet)
    (nextHop : String) (ttl : Nat) (now : ℚ) :
    (alookup sw.arpTable p.dstIp = none →
      handleConnectedRoute sw p ttl now = arpMissStep sw p.dstIp p ttl now) ∧
    (alookup sw.arpTable nextHop = none →
      handleIndirectRoute sw p nextHop ttl now =
        arpMissStep sw nextHop p ttl now) ∧
    ∀ ip : String,
      alookup (arpMissStep sw ip p ttl now).1.arpQueue ip =
        some ((alookup sw.arpQueue ip).getD [] ++ [(p, ttl, now)]) ∧
      ((arpMissStep sw ip p ttl now).2 = FwdAction.queuedWithRequest ↔
        ¬ ∃ t, alookup sw.arpReqTimes ip = some t ∧ t ≠ 0 ∧ now - t ≤ 1) ∧
      ((arpMissStep sw ip p ttl now).2 ≠ FwdAction.queuedWithRequest →
        (arpMissStep sw ip p ttl now).1.arpReqTimes = sw.arpReqTimes) ∧
      (∀ t, (arpMissStep sw ip p ttl now).2 = FwdAction.queuedWithRequest →
        alookup sw.arpReqTimes ip = some t → t ≠ 0 → now - t > 1) := by
  refine ⟨?hc, ?hi, ?hmain⟩
  case hc => intro h; rw [handleConnectedRoute, h]
  case hi => intro h; rw [handleIndirectRoute, h]
  case hmain =>
    intro ip
    obtain ⟨hor, hiff, hq, hset, hkeep⟩ := arpMissStep_spec sw ip p ttl now
    have hiff2 : (arpMissStep sw ip p ttl now).2 = FwdAction.queuedWithRequest ↔
        ¬ ∃ t, alookup sw.arpReqTimes ip = some t ∧ t ≠ 0 ∧ now - t ≤ 1 := by
      rw [hiff, arpNeedSend_true_iff]
      cases hT : alookup sw.arpReqTimes ip with
      | none => simp
      | some t =>
          constructor
          · rintro (h | ⟨u, hu, hcu⟩) ⟨v, hv, hv0, hv1⟩
            · cases h
            · cases hu
              cases hv
              rcases hcu with h0 | h1
              · exact hv0 h0
              · linarith
          · intro hno
            refine Or.inr ⟨t, rfl, ?hco⟩
            by_cases h0 : t = 0
            · exact Or.inl h0
            · right
              by_contra hle
              exact hno ⟨t, rfl, h0, by linarith⟩
    refine ⟨hq, hiff2, ?hkeep2, ?hgap⟩
    case hkeep2 =>
      intro hne
      rcases hor with h | h
      · exact absurd h hne
      · exact hkeep h
    case hgap =>
      intro t hreq ht ht0
      rcases hiff.mp hreq with h2
      rw [arpNeedSend_true_iff] at h2
      rcases h2 with h | ⟨u, hu, hcu⟩
      · rw [ht] at h; cases h
      · rw [ht] at hu
        cases hu
        rcases hcu with h0 | h1
        · exact absurd h0 ht0
        · exact h1

/-- C8 witness: the amended statement at a fresh switch whose last request
for `10.0.0.9` was at time 2, with a new packet at time 7/2. -/
theorem arp_request_rate_limited_witness :
    handleConnectedRoute swRateLimited samplePing 5 (7 / 2) =
      arpMissStep swRateLimited samplePing.dstIp samplePing 5 (7 / 2) :=
  (arp_request_rate_limited swRateLimited samplePing "10.0.0.9" 5 (7 / 2)).1
    (by decide)

/-- C8 (counterexample): at exactly 1 second since the previous
arp-request (timestamp 2, arrival 3) the claim's "otherwise" branch says a
request is broadcast, but the code's strict `> 1` test only enqueues. -/
theorem arp_request_boundary_no_send :
    alookup swRateLimited.arpTable samplePing.dstIp = none ∧
    alookup swRateLimited.arpReqTimes samplePing.dstIp = some 2 ∧
    ¬ ((3 : ℚ) - 2 < 1) ∧
    (handleConnectedRoute swRateLimited samplePing 5 3).2 =
      FwdAction.queuedNoRequest := by
  have hmiss : alookup swRateLimited.arpTable samplePing.dstIp = none := by
    decide
  have hT : alookup swRateLimited.arpReqTimes samplePing.dstIp = some 2 := by
    decide
  have hcond : ¬ ((2 : ℚ) = 0 ∨ (3 : ℚ) - 2 > 1) := by norm_num
  have hsend : arpNeedSend swRateLimited.arpReqTimes samplePing.dstIp 3 =
      false := by
    rw [arpNeedSend, hT]
    simpa using hcond
  refine ⟨hmiss, hT, by norm_num, ?hact⟩
  rw [handleConnectedRoute, hmiss, arpMissStep, hsend]
  simp

/-! ## Claim C9 -/

theorem addGraphNode_ports (lab : List (String × Switch)) (a b x : String) :
    (alookup (addGraphNode lab a b) x).map Switch.ports =
      (alookup lab x).map Switch.ports := by
  rw [addGraphNode]
  cases hA : alookup lab a with
  | none => rfl
  | some s =>
      by_cases hmem : b ∈ s.graphNodes
      · simp [hmem]
      · simp only [hmem, if_false]
        rw [alookup_ainsert]
        by_cases hx : a = x
        · subst hx
          rw [hA]
          simp
        · simp [hx]

/-- C9 (counterexample): `link` performs no already-linked check.  After
`link("sw1", 1, "sw2", 1)`, port 1 of `sw1` is linked to `sw2`; a second
`link("sw1", 1, "sw3", 1)` still links, overwriting the endpoint to `sw3`
and bringing `sw3`'s port up — the claimed refusal does not happen. -/
theorem link_no_already_linked_guard :
    ((alookup (linkOp lab3 "sw1" 1 "sw2" 1) "sw1").bind
        (fun s => alookup s.ports 1)).map Port.linkedNode =
      some (some "sw2") ∧
    ((alookup (linkOp (linkOp lab3 "sw1" 1 "sw2" 1) "sw1" 1 "sw3" 1)
        "sw1").bind (fun s => alookup s.ports 1)).map Port.linkedNode =
      some (some "sw3") ∧
    ((alookup (linkOp (linkOp lab3 "sw1" 1 "sw2" 1) "sw1" 1 "sw3" 1)
        "sw3").bind (fun s => alookup s.ports 1)).map Port.linkedNode =
      some (some "sw1") ∧
    ((alookup (linkOp (linkOp lab3 "sw1" 1 "sw2" 1) "sw1" 1 "sw3" 1)
        "sw3").bind (fun s => alookup s.ports 1)).map Port.status =
      some "up" := by
  refine ⟨by decide, by decide, by decide, by decide⟩

/-- C9 (amended): for existing switches `sw1 ≠ sw2`, `link(sw1,p1,sw2,p2)`
sets `sw1.ports[p1].linked_node = sw2`, `sw2.ports[p2].linked_node = sw1`
and brings both ports up, unconditionally — any previous linkage of either
port is silently overwritten; there is no already-linked guard. -/
theorem link_sets_both_endpoints (lab : List (String × Switch))
    (sw1 sw2 : String) (p1 p2 : Nat) (s1 s2 : Switch) (q1 q2 : Port)
    (hne : sw1 ≠ sw2)
    (h1 : alookup lab sw1 = some s1) (h2 : alookup lab sw2 = some s2)
    (hp1 : alookup s1.ports p1 = some q1)
    (hp2 : alookup s2.ports p2 = some q2) :
    ∃ s1f s2f,
      alookup (linkOp lab sw1 p1 sw2 p2) sw1 = some s1f ∧
      alookup (linkOp lab sw1 p1 sw2 p2) sw2 = some s2f ∧
      alookup s1f.ports p1 =
        some ({ q1 with linkedNode := some sw2, status := "up" }) ∧
      alookup s2f.ports p2 =
        some ({ q2 with linkedNode := some sw1, status := "up" }) := by
  have hcond : (alookup lab sw1).isSome ∧ (alookup lab sw2).isSome := by
    rw [h1, h2]; exact ⟨rfl, rfl⟩
  rw [linkOp, if_pos hcond]
  set q1n := { q1 with linkedNode := some sw2, status := "up" } with hq1n
  set q2n := { q2 with linkedNode := some sw1, status := "up" } with hq2n
  set s1a := { s1 with ports := ainsert s1.ports p1 q1n } with hs1a
  have hL1 : setPortLink lab sw1 p1 sw2 = ainsert lab sw1 s1a := by
    simp only [setPortLink, h1, hp1]
  have hL1a : alookup (setPortLink lab sw1 p1 sw2) sw1 = some s1a := by
    rw [hL1]; exact alookup_ainsert_self _ _ _
  have hL1b : alookup (setPortLink lab sw1 p1 sw2) sw2 = some s2 := by
    rw [hL1, alookup_ainsert_ne _ _ _ _ hne]; exact h2
  set lab1 := setPortLink lab sw1 p1 sw2 with hlab1
  set s2a := { s2 with ports := ainsert s2.ports p2 q2n } with hs2a
  have hL2 : setPortLink lab1 sw2 p2 sw1 = ainsert lab1 sw2 s2a := by
    simp only [setPortLink, hL1b, hp2]
  have hL2a : alookup (setPortLink lab1 sw2 p2 sw1) sw1 = some s1a := by
    rw [hL2, alookup_ainsert_ne _ _ _ _ (Ne.symm hne)]; exact hL1a
  have hL2b : alookup (setPortLink lab1 sw2 p2 sw1) sw2 = some s2a := by
    rw [hL2]; exact alookup_ainsert_self _ _ _
  set lab2 := setPortLink lab1 sw2 p2 sw1 with hlab2
  have hg1 : (alookup (addGraphNode (addGraphNode lab2 sw1 sw2) sw2 sw1)
      sw1).map Switch.ports = some s1a.ports := by
    rw [addGraphNode_ports, addGraphNode_ports, hL2a]
    rfl
  have hg2 : (alookup (addGraphNode (addGraphNode lab2 sw1 sw2) sw2 sw1)
      sw2).map Switch.ports = some s2a.ports := by
    rw [addGraphNode_ports, addGraphNode_ports, hL2b]
    rfl
  rcases Option.map_eq_some'.mp hg1 with ⟨s1f, hf1, hpf1⟩
  rcases Option.map_eq_some'.mp hg2 with ⟨s2f, hf2, hpf2⟩
  refine ⟨s1f, s2f, hf1, hf2, ?e1, ?e2⟩
  case e1 => rw [hpf1, hs1a]; exact alookup_ainsert_self _ _ _
  case e2 => rw [hpf2, hs2a]; exact alookup_ainsert_self _ _ _

/-- C9 witness: linking `sw1:1` to `sw2:1` in the three-switch lab. -/
theorem link_sets_both_endpoints_witness :
    ∃ s1f s2f,
      alookup (linkOp lab3 "sw1" 1 "sw2" 1) "sw1" = some s1f ∧
      alookup (linkOp lab3 "sw1" 1 "sw2" 1) "sw2" = some s2f ∧
      alookup s1f.ports 1 =
        some ({ defaultPort 1 with linkedNode := some "sw2", status := "up" }) ∧
      alookup s2f.ports 1 =
        some ({ defaultPort 1 with linkedNode := some "sw1", status := "up" }) :=
  link_sets_both_endpoints lab3 "sw1" "sw2" 1 1 (initSwitch "sw1")
    (initSwitch "sw2") (defaultPort 1) (defaultPort 1)
    (by decide) (by decide) (by decide) (by decide) (by decide)

/-! ## Claim C2 -/

/-- C2 (code bug): in `calculate_routes` the route-installation loop
reuses the loop variable `cost` left over from the LSDB graph-building
loops instead of the Dijkstra path cost.  On the star `S–B` (cost 2),
`S–C` (cost 10), with the LSDB iterated ending on the edge `C→S` of cost
10, the route to `B`'s subnet `20.0.0.0/24` is installed with cost 10
while the shortest-path cost from `S` to `B` is 2.  Next-hop selection
and the skip conditions behave as claimed; only the cost is wrong. -/
theorem ospf_cost_is_stale_loop_variable :
    alookup (calculateRoutes netStar swS2) "20.0.0.0/24" =
      some ("10.0.1.2", 10) ∧
    alookup (calculateRoutes netStar swS2) "30.0.0.0/24" =
      some ("10.0.2.2", 10) ∧
    distTo (buildGraph swS2.lsdb) "S" "B" = some 2 ∧
    lastLsdbCost swS2.lsdb = some 10 ∧
    (10 : Nat) ≠ 2 := by
  refine ⟨by decide, by decide, by decide, by decide, by decide⟩

/-! ## Claim C5 -/

theorem lsaForwardTargets_mem (sw : Switch) (fromNode t : String) :
    t ∈ lsaForwardTargets sw fromNode ↔
      ∃ pp ∈ sw.ports, pp.2.status = "up" ∧ pp.2.linkedNode = some t ∧
        t ≠ fromNode := by
  rw [lsaForwardTargets, List.mem_filterMap]
  constructor
  · rintro ⟨pp, hmem, hf⟩
    cases hL : pp.2.linkedNode with
    | none => rw [hL] at hf; cases hf
    | some n =>
        rw [hL] at hf
        dsimp only at hf
        by_cases hc : pp.2.status = "up" ∧ n ≠ fromNode
        · rw [if_pos hc] at hf
          cases hf
          exact ⟨pp, hmem, hc.1, hL, hc.2⟩
        · rw [if_neg hc] at hf
          cases hf
  · rintro ⟨pp, hmem, hs, hL, hne⟩
    refine ⟨pp, hmem, ?hf⟩
    rw [hL]
    simp [hs, hne]

/-- C5: `receive_lsa(from_node, lsa)` — if the stored LSA for `from_node`
already equals `lsa`, the switch is unchanged and nothing is forwarded;
otherwise the switch overwrites `lsdb[from_node]` (leaving every other
LSDB entry intact), recomputes the OSPF table from the updated LSDB,
redistributes it into the routing table, and forwards the LSA exactly to
the linked neighbors on up ports other than `from_node` itself. -/
theorem receive_lsa_behavior (net : List (String × Switch)) (sw : Switch)
    (fromNode : String) (lsa : List (String × Nat)) :
    (alookup sw.lsdb fromNode = some lsa →
      receiveLsaStep net sw fromNode lsa = (sw, [])) ∧
    (alookup sw.lsdb fromNode ≠ some lsa →
      alookup (receiveLsaStep net sw fromNode lsa).1.lsdb fromNode =
          some lsa ∧
      (∀ k, k ≠ fromNode →
        alookup (receiveLsaStep net sw fromNode lsa).1.lsdb k =
          alookup sw.lsdb k) ∧
      (receiveLsaStep net sw fromNode lsa).1.ospfRoutes =
        calculateRoutes net { sw with lsdb := ainsert sw.lsdb fromNode lsa } ∧
      (receiveLsaStep net sw fromNode lsa).1.routingTable =
        redistributeOspfRoutes sw.routingTable
          (receiveLsaStep net sw fromNode lsa).1.ospfRoutes ∧
      (∀ t, t ∈ (receiveLsaStep net sw fromNode lsa).2 ↔
        ∃ pp ∈ sw.ports, pp.2.status = "up" ∧ pp.2.linkedNode = some t ∧
          t ≠ fromNode)) := by
  constructor
  · intro h
    rw [receiveLsaStep, if_pos h]
  · intro h
    rw [receiveLsaStep, if_neg h]
    refine ⟨?h1, ?h2, rfl, rfl, ?h5⟩
    case h1 => exact alookup_ainsert_self _ _ _
    case h2 =>
      intro k hk
      exact alookup_ainsert_ne _ _ _ _ (fun he => hk he.symm)
    case h5 =>
      intro t
      exact lsaForwardTargets_mem _ fromNode t

/-- C5 witness: a fresh switch receiving a first LSA stores it. -/
theorem receive_lsa_behavior_witness :
    alookup (receiveLsaStep [] (initSwitch "A") "B" [("A", 1)]).1.lsdb "B" =
      some [("A", 1)] :=
  ((receive_lsa_behavior [] (initSwitch "A") "B" [("A", 1)]).2
    (by decide)).1

/-! ## Claim C6: evolution and measure lemmas -/

theorem alookup_mem {K V : Type} [DecidableEq K] (l : List (K × V)) (k : K)
    (v : V) (h : alookup l k = some v) : (k, v) ∈ l := by
  induction l with
  | nil => cases h
  | cons hd tl ih =>
      obtain ⟨a, b⟩ := hd
      rw [alookup] at h
      by_cases hk : a = k
      · rw [if_pos hk] at h
        injection h with hb
        subst hb
        subst hk
        exact List.mem_cons_self _ _
      · rw [if_neg hk] at h
        exact List.mem_cons_of_mem _ (ih h)

theorem evolves_refl (o : String) (l : List (String × Nat))
    (a : List (String × Switch)) : evolves o l a a := by
  induction a with
  | nil => exact List.Forall₂.nil
  | cons hd tl ih => exact List.Forall₂.cons ⟨rfl, rfl, id⟩ ih

theorem evolves_trans (o : String) (l : List (String × Nat))
    {a b c : List (String × Switch)}
    (h1 : evolves o l a b) (h2 : evolves o l b c) : evolves o l a c := by
  induction h1 generalizing c with
  | nil => cases h2; exact List.Forall₂.nil
  | cons hr hrest ih =>
      cases h2 with
      | cons hr2 hrest2 =>
          exact List.Forall₂.cons
            ⟨hr.1.trans hr2.1, hr2.2.1.trans hr.2.1,
             fun hs => hr2.2.2 (hr.2.2 hs)⟩ (ih hrest2)

theorem evolves_ainsert (o : String) (l : List (String × Nat))
    (net : List (String × Switch)) (tgt : String) (sw sw2 : Switch)
    (hA : alookup net tgt = some sw) (hports : sw2.ports = sw.ports)
    (hst : storesLsa o l sw2) : evolves o l net (ainsert net tgt sw2) := by
  induction net with
  | nil => cases hA
  | cons hd tl ih =>
      obtain ⟨a, b⟩ := hd
      rw [alookup] at hA
      rw [ainsert]
      by_cases hk : a = tgt
      · rw [if_pos hk] at hA ⊢
        injection hA with hb
        subst hb
        exact List.Forall₂.cons ⟨hk, hports, fun _ => hst⟩
          (evolves_refl o l tl)
      · rw [if_neg hk] at hA ⊢
        exact List.Forall₂.cons ⟨rfl, rfl, id⟩ (ih hA)

theorem evolves_lookup (o : String) (l : List (String × Nat))
    {a b : List (String × Switch)} (h : evolves o l a b) (x : String) :
    (alookup a x = none ∧ alookup b x = none) ∨
      ∃ u v, alookup a x = some u ∧ alookup b x = some v ∧
        v.ports = u.ports ∧ (storesLsa o l u → storesLsa o l v) := by
  induction h with
  | nil => exact Or.inl ⟨rfl, rfl⟩
  | cons hr hrest ih =>
      rename_i p q l₁ l₂
      obtain ⟨pk, pv⟩ := p
      obtain ⟨qk, qv⟩ := q
      obtain ⟨hkey, hports, hmono⟩ := hr
      dsimp only at hkey hports hmono
      subst hkey
      rw [alookup, alookup]
      by_cases hx : pk = x
      · rw [if_pos hx, if_pos hx]
        exact Or.inr ⟨pv, qv, rfl, rfl, hports, hmono⟩
      · rw [if_neg hx, if_neg hx]
        exact ih

theorem evolves_lookupGood (o : String) (l : List (String × Nat))
    {a b : List (String × Switch)} (h : evolves o l a b) (x : String)
    (hg : lookupGood o l a x) : lookupGood o l b x := by
  intro sw hsw
  rcases evolves_lookup o l h x with ⟨_, hbn⟩ | ⟨u, v, hu, hv, _, hm⟩
  · rw [hbn] at hsw; cases hsw
  · rw [hv] at hsw
    injection hsw with he
    subst he
    exact hm (hg u hu)

theorem badCount_cons (o : String) (l : List (String × Nat))
    (e : String × Switch) (t : List (String × Switch)) :
    badCount o l (e :: t) =
      (if storesLsa o l e.2 then 0 else 1) + badCount o l t := by
  by_cases h : storesLsa o l e.2
  · simp [badCount, List.filter_cons, h]
  · simp [badCount, List.filter_cons, h]
    omega

theorem evolves_badCount (o : String) (l : List (String × Nat))
    {a b : List (String × Switch)} (h : evolves o l a b) :
    badCount o l b ≤ badCount o l a := by
  induction h with
  | nil => exact Nat.le_refl _
  | cons hr hrest ih =>
      rename_i p q l₁ l₂
      rw [badCount_cons, badCount_cons]
      by_cases hps : storesLsa o l p.2
      · have hqs : storesLsa o l q.2 := hr.2.2 hps
        simp only [hps, hqs, if_true]
        omega
      · by_cases hqs : storesLsa o l q.2 <;> simp only [hps, hqs] <;> simp <;> omega

theorem badCount_ainsert_lt (o : String) (l : List (String × Nat))
    (net : List (String × Switch)) (tgt : String) (sw sw2 : Switch)
    (hA : alookup net tgt = some sw) (hbad : ¬ storesLsa o l sw)
    (hst : storesLsa o l sw2) :
    badCount o l (ainsert net tgt sw2) < badCount o l net := by
  induction net with
  | nil => cases hA
  | cons hd tl ih =>
      obtain ⟨a, b⟩ := hd
      rw [alookup] at hA
      rw [ainsert]
      by_cases hk : a = tgt
      · rw [if_pos hk] at hA ⊢
        injection hA with hb
        subst hb
        simp [badCount, List.filter_cons, hst, hbad]
      · rw [if_neg hk] at hA ⊢
        rw [badCount_cons, badCount_cons]
        have := ih hA
        omega

theorem badCount_pos (o : String) (l : List (String × Nat))
    (net : List (String × Switch)) (tgt : String) (sw : Switch)
    (hA : alookup net tgt = some sw) (hbad : ¬ storesLsa o l sw) :
    0 < badCount o l net := by
  have hm := alookup_mem net tgt sw hA
  have hin : (tgt, sw) ∈ net.filter (fun e => !(decide (storesLsa o l e.2))) :=
    List.mem_filter.mpr ⟨hm, by simp [hbad]⟩
  exact List.length_pos.mpr (List.ne_nil_of_mem hin)

theorem badCount_le_length (o : String) (l : List (String × Nat))
    (net : List (String × Switch)) : badCount o l net ≤ net.length :=
  List.length_filter_le _ net

theorem evolves_directedLinks (o : String) (l : List (String × Nat))
    {a b : List (String × Switch)} (h : evolves o l a b) :
    directedLinks b = directedLinks a := by
  induction h with
  | nil => rfl
  | cons hr hrest ih =>
      rename_i p q l₁ l₂
      have hstep : directedLinks (p :: l₁) =
          p.2.ports.filterMap
            (fun pp => pp.2.linkedNode.map (fun n => (p.1, n))) ++
            directedLinks l₁ := by
        simp [directedLinks]
      have hstep2 : directedLinks (q :: l₂) =
          q.2.ports.filterMap
            (fun pp => pp.2.linkedNode.map (fun n => (q.1, n))) ++
            directedLinks l₂ := by
        simp [directedLinks]
      rw [hstep, hstep2, ih, hr.2.1, hr.1]

theorem evolves_portLinked (o : String) (l : List (String × Nat))
    {a b : List (String × Switch)} (h : evolves o l a b) (s t : String) :
    portLinked a s t ↔ portLinked b s t := by
  rw [portLinked, portLinked, evolves_directedLinks o l h]

theorem portLinked_intro (net : List (String × Switch)) (s : String)
    (sw : Switch) (t : String) (pid : Nat) (port : Port)
    (hmem : (s, sw) ∈ net) (hp : (pid, port) ∈ sw.ports)
    (hl : port.linkedNode = some t) : portLinked net s t := by
  rw [portLinked, directedLinks, List.mem_flatMap]
  refine ⟨(s, sw), hmem, ?hin⟩
  rw [List.mem_filterMap]
  refine ⟨(pid, port), hp, ?hf⟩
  rw [hl]
  rfl

/-! ## Claim C6: event-list lemmas -/

theorem okEvents_weaken {A B : List String} (hsub : ∀ x ∈ A, x ∈ B)
    {E : List (String × String)} (h : okEvents A E) : okEvents B E := by
  induction E generalizing A B with
  | nil => trivial
  | cons e rest ih =>
      obtain ⟨h1, h2⟩ := h
      refine ⟨hsub e.1 h1, ih ?hsub2 h2⟩
      intro x hx
      rcases List.mem_cons.mp hx with h | h
      · exact List.mem_cons.mpr (Or.inl h)
      · exact List.mem_cons.mpr (Or.inr (hsub x h))

theorem okEvents_append {E₁ E₂ : List (String × String)} :
    ∀ {A : List String}, okEvents A E₁ →
      okEvents (E₁.map Prod.snd ++ A) E₂ → okEvents A (E₁ ++ E₂) := by
  induction E₁ with
  | nil =>
      intro A h1 h2
      simpa using h2
  | cons e rest ih =>
      intro A h1 h2
      obtain ⟨ha, hrest⟩ := h1
      refine ⟨ha, ih hrest (okEvents_weaken ?hsub h2)⟩
      intro x hx
      simp only [List.map_cons, List.cons_append, List.mem_cons,
        List.mem_append] at hx ⊢
      tauto

theorem applyLsa_ports (net : List (String × Switch)) (sw : Switch)
    (o : String) (l : List (String × Nat)) :
    (applyLsa net sw o l).ports = sw.ports := rfl

theorem applyLsa_stores (net : List (String × Switch)) (sw : Switch)
    (o : String) (l : List (String × Nat)) :
    storesLsa o l (applyLsa net sw o l) :=
  alookup_ainsert_self sw.lsdb o l

theorem pairs_nodup :
    ∀ (E : List (String × String)) (allowed : List String),
      okEvents allowed E → (E.map Prod.snd).Nodup →
      (∀ a ∈ allowed, a ∉ E.map Prod.snd) →
      (E.map (fun e => Sym2.mk e)).Nodup := by
  intro E
  induction E with
  | nil => intro _ _ _ _; simp
  | cons e rest ih =>
      intro allowed hok hnd hdisj
      obtain ⟨hs, hok2⟩ := hok
      rw [List.map_cons, List.nodup_cons] at hnd
      obtain ⟨hnd1, hnd2⟩ := hnd
      rw [List.map_cons, List.nodup_cons]
      constructor
      · intro hing
        rcases List.mem_map.mp hing with ⟨e2, he2mem, heq⟩
        rcases Sym2.mk_eq_mk_iff.mp heq with hsame | hswap
        · subst hsame
          exact hnd1 (List.mem_map.mpr ⟨e2, he2mem, rfl⟩)
        · have hr2 : e2.2 = e.1 := by rw [hswap]; rfl
          have hs2 : e.1 ∈ rest.map Prod.snd :=
            List.mem_map.mpr ⟨e2, he2mem, hr2⟩
          exact hdisj e.1 hs (List.mem_cons.mpr (Or.inr hs2))
      · refine ih (e.2 :: allowed) hok2 hnd2 ?hdisj2
        intro a ha
        rcases List.mem_cons.mp ha with h | h
        · subst h; exact hnd1
        · intro hmem
          exact hdisj a h (List.mem_cons.mpr (Or.inr hmem))

theorem length_le_of_nodup_subset {α : Type} [DecidableEq α]
    {l₁ l₂ : List α} (hnd : l₁.Nodup) (hsub : ∀ x ∈ l₁, x ∈ l₂) :
    l₁.length ≤ l₂.length := by
  calc l₁.length = l₁.toFinset.card := (List.toFinset_card_of_nodup hnd).symm
    _ ≤ l₂.toFinset.card := Finset.card_le_card (fun x hx =>
        List.mem_toFinset.mpr (hsub x (List.mem_toFinset.mp hx)))
    _ ≤ l₂.length := List.toFinset_card_le l₂

/-! ## Claim C6: unfolding equations of the flood -/

theorem floodLsa_zero (net : List (String × Switch)) (o : String)
    (l : List (String × Nat)) (s t : String) :
    floodLsa 0 net o l s t = (net, []) := rfl

theorem floodLsa_succ_none (fuel : Nat) (net : List (String × Switch))
    (o : String) (l : List (String × Nat)) (s t : String)
    (hA : alookup net t = none) :
    floodLsa (fuel + 1) net o l s t = (net, []) := by
  rw [floodLsa, hA]

theorem floodLsa_succ_stores (fuel : Nat) (net : List (String × Switch))
    (o : String) (l : List (String × Nat)) (s t : String) (sw : Switch)
    (hA : alookup net t = some sw) (hst : alookup sw.lsdb o = some l) :
    floodLsa (fuel + 1) net o l s t = (net, []) := by
  rw [floodLsa, hA]
  dsimp only
  rw [if_pos hst]

theorem floodLsa_succ_event (fuel : Nat) (net : List (String × Switch))
    (o : String) (l : List (String × Nat)) (s t : String) (sw : Switch)
    (hA : alookup net t = some sw) (hst : ¬ alookup sw.lsdb o = some l) :
    floodLsa (fuel + 1) net o l s t =
      (lsaForwardTargets (applyLsa net sw o l) o).foldl
        (fun acc t2 =>
          ((floodLsa fuel acc.1 o l t t2).1,
            acc.2 ++ (floodLsa fuel acc.1 o l t t2).2))
        (ainsert net t (applyLsa net sw o l), [(s, t)]) := by
  rw [floodLsa, hA]
  dsimp only
  rw [if_neg hst]

/-! ## Claim C6: the lab only evolves monotonically under flooding -/

theorem flood_evolves (o : String) (l : List (String × Nat)) :
    ∀ (fuel : Nat) (s t : String) (net : List (String × Switch)),
      evolves o l net (floodLsa fuel net o l s t).1 := by
  intro fuel
  induction fuel with
  | zero => intro s t net; exact evolves_refl o l net
  | succ fuel ih =>
      intro s t net
      cases hA : alookup net t with
      | none =>
          rw [floodLsa_succ_none fuel net o l s t hA]
          exact evolves_refl o l net
      | some sw =>
          by_cases hst : alookup sw.lsdb o = some l
          · rw [floodLsa_succ_stores fuel net o l s t sw hA hst]
            exact evolves_refl o l net
          · rw [floodLsa_succ_event fuel net o l s t sw hA hst]
            have h1 : evolves o l net (ainsert net t (applyLsa net sw o l)) :=
              evolves_ainsert o l net t sw (applyLsa net sw o l) hA
                (applyLsa_ports net sw o l) (applyLsa_stores net sw o l)
            have hfold : ∀ (ts : List String)
                (acc : (List (String × Switch)) × List (String × String)),
                evolves o l net acc.1 →
                evolves o l net
                  (ts.foldl
                    (fun acc t2 =>
                      ((floodLsa fuel acc.1 o l t t2).1,
                        acc.2 ++ (floodLsa fuel acc.1 o l t t2).2)) acc).1 := by
              intro ts
              induction ts with
              | nil => intro acc h; exact h
              | cons t2 ts iht =>
                  intro acc h
                  exact iht _ (evolves_trans o l h (ih t t2 acc.1))
            exact hfold _ _ h1

/-! ## Claim C6: termination — fuel beyond the measure is irrelevant -/

theorem flood_fuel_eq (o : String) (l : List (String × Nat)) :
    ∀ (n f₁ f₂ : Nat) (s t : String) (net : List (String × Switch)),
      badCount o l net ≤ n → badCount o l net < f₁ →
      badCount o l net < f₂ →
      floodLsa f₁ net o l s t = floodLsa f₂ net o l s t := by
  intro n
  induction n with
  | zero =>
      intro f₁ f₂ s t net hle h1 h2
      obtain ⟨k₁, rfl⟩ : ∃ k, f₁ = k + 1 := ⟨f₁ - 1, by omega⟩
      obtain ⟨k₂, rfl⟩ : ∃ k, f₂ = k + 1 := ⟨f₂ - 1, by omega⟩
      cases hA : alookup net t with
      | none =>
          rw [floodLsa_succ_none k₁ net o l s t hA,
            floodLsa_succ_none k₂ net o l s t hA]
      | some sw =>
          by_cases hst : alookup sw.lsdb o = some l
          · rw [floodLsa_succ_stores k₁ net o l s t sw hA hst,
              floodLsa_succ_stores k₂ net o l s t sw hA hst]
          · exact absurd (badCount_pos o l net t sw hA hst) (by omega)
  | succ n ihn =>
      intro f₁ f₂ s t net hle h1 h2
      by_cases hle2 : badCount o l net ≤ n
      · exact ihn f₁ f₂ s t net hle2 h1 h2
      · have hbc : badCount o l net = n + 1 := by omega
        obtain ⟨k₁, rfl⟩ : ∃ k, f₁ = k + 1 := ⟨f₁ - 1, by omega⟩
        obtain ⟨k₂, rfl⟩ : ∃ k, f₂ = k + 1 := ⟨f₂ - 1, by omega⟩
        have hk₁ : n < k₁ := by omega
        have hk₂ : n < k₂ := by omega
        cases hA : alookup net t with
        | none =>
            rw [floodLsa_succ_none k₁ net o l s t hA,
              floodLsa_succ_none k₂ net o l s t hA]
        | some sw =>
            by_cases hst : alookup sw.lsdb o = some l
            · rw [floodLsa_succ_stores k₁ net o l s t sw hA hst,
                floodLsa_succ_stores k₂ net o l s t sw hA hst]
            · rw [floodLsa_succ_event k₁ net o l s t sw hA hst,
                floodLsa_succ_event k₂ net o l s t sw hA hst]
              have hbn1 : badCount o l (ainsert net t (applyLsa net sw o l)) <
                  badCount o l net :=
                badCount_ainsert_lt o l net t sw (applyLsa net sw o l) hA hst
                  (applyLsa_stores net sw o l)
              have hfold : ∀ (ts : List String)
                  (acc : (List (String × Switch)) × List (String × String)),
                  badCount o l acc.1 ≤ n →
                  ts.foldl
                    (fun acc t2 =>
                      ((floodLsa k₁ acc.1 o l t t2).1,
                        acc.2 ++ (floodLsa k₁ acc.1 o l t t2).2)) acc =
                  ts.foldl
                    (fun acc t2 =>
                      ((floodLsa k₂ acc.1 o l t t2).1,
                        acc.2 ++ (floodLsa k₂ acc.1 o l t t2).2)) acc := by
                intro ts
                induction ts with
                | nil => intro acc _; rfl
                | cons t2 ts iht =>
                    intro acc hacc
                    have heq : floodLsa k₁ acc.1 o l t t2 =
                        floodLsa k₂ acc.1 o l t t2 :=
                      ihn k₁ k₂ t t2 acc.1 hacc (by omega) (by omega)
                    rw [List.foldl_cons, List.foldl_cons, heq]
                    apply iht
                    calc badCount o l (floodLsa k₂ acc.1 o l t t2).1 ≤
                        badCount o l acc.1 :=
                          evolves_badCount o l (flood_evolves o l k₂ t t2 acc.1)
                      _ ≤ n := hacc
              exact hfold _ _ (by
                show badCount o l (ainsert net t (applyLsa net sw o l)) ≤ n
                omega)

/-! ## Claim C6: the flood invariant -/

theorem flood_spec (o : String) (l : List (String × Nat)) :
    ∀ (fuel : Nat) (s t : String) (net : List (String × Switch)),
      portLinked net s t →
      FloodInv o l s net (floodLsa fuel net o l s t) := by
  intro fuel
  induction fuel with
  | zero =>
      intro s t net hpre
      rw [floodLsa_zero]
      exact ⟨evolves_refl o l net, by simp, by simp, by simp, trivial⟩
  | succ fuel ih =>
      intro s t net hpre
      cases hA : alookup net t with
      | none =>
          rw [floodLsa_succ_none fuel net o l s t hA]
          exact ⟨evolves_refl o l net, by simp, by simp, by simp, trivial⟩
      | some sw =>
          by_cases hst : alookup sw.lsdb o = some l
          · rw [floodLsa_succ_stores fuel net o l s t sw hA hst]
            exact ⟨evolves_refl o l net, by simp, by simp, by simp, trivial⟩
          · rw [floodLsa_succ_event fuel net o l s t sw hA hst]
            have hev1 : evolves o l net
                (ainsert net t (applyLsa net sw o l)) :=
              evolves_ainsert o l net t sw _ hA (applyLsa_ports net sw o l)
                (applyLsa_stores net sw o l)
            have hbase : FloodInv o l s net
                (ainsert net t (applyLsa net sw o l), [(s, t)]) := by
              refine ⟨hev1, by simp, ?hrcv, ?hlink, ?hok⟩
              case hrcv =>
                intro r hr
                simp only [List.map_cons, List.map_nil,
                  List.mem_singleton] at hr
                subst hr
                refine ⟨⟨sw, hA, hst⟩, ?hg⟩
                intro sw0 hsw0
                rw [alookup_ainsert_self] at hsw0
                injection hsw0 with he
                rw [he.symm]
                exact applyLsa_stores net sw o l
              case hlink =>
                intro e he
                rw [List.mem_singleton] at he
                subst he
                exact hpre
              case hok => exact ⟨List.mem_singleton.mpr rfl, trivial⟩
            have hts : ∀ t2 ∈ lsaForwardTargets (applyLsa net sw o l) o,
                portLinked net t t2 := by
              intro t2 ht2
              rcases (lsaForwardTargets_mem (applyLsa net sw o l) o t2).mp ht2
                with ⟨pp, hpmem, hup, hlk, hne2⟩
              exact portLinked_intro net t sw t2 pp.1 pp.2
                (alookup_mem net t sw hA) hpmem hlk
            have htin : t ∈ ([(s, t)].map Prod.snd) := by simp
            have hfold : ∀ (ts : List String)
                (acc : (List (String × Switch)) × List (String × String)),
                FloodInv o l s net acc →
                t ∈ acc.2.map Prod.snd →
                (∀ t2 ∈ ts, portLinked net t t2) →
                FloodInv o l s net
                  (ts.foldl (fun acc t2 =>
                    ((floodLsa fuel acc.1 o l t t2).1,
                      acc.2 ++ (floodLsa fuel acc.1 o l t t2).2)) acc) := by
              intro ts
              induction ts with
              | nil => intro acc hinv _ _; exact hinv
              | cons t2 ts iht =>
                  intro acc hinv htin2 hts2
                  obtain ⟨hev, hnd, hrcv, hlink, hok⟩ := hinv
                  have hpl : portLinked acc.1 t t2 :=
                    (evolves_portLinked o l hev t t2).mp
                      (hts2 t2 (List.mem_cons_self _ _))
                  obtain ⟨hev2, hnd2, hrcv2, hlink2, hok2⟩ :=
                    ih t t2 acc.1 hpl
                  rw [List.foldl_cons]
                  apply iht
                  · refine ⟨evolves_trans o l hev hev2, ?nd, ?rc, ?lnk, ?ok⟩
                    case nd =>
                      rw [List.map_append, List.nodup_append]
                      refine ⟨hnd, hnd2, ?dis⟩
                      intro r hr1 hr2
                      obtain ⟨⟨sw0, hsw0, hbad0⟩, hgood0⟩ := hrcv2 r hr2
                      exact hbad0 ((hrcv r hr1).2 sw0 hsw0)
                    case rc =>
                      intro r hr
                      rw [List.map_append, List.mem_append] at hr
                      rcases hr with hr | hr
                      · obtain ⟨hbadnet, hgoodacc⟩ := hrcv r hr
                        exact ⟨hbadnet, evolves_lookupGood o l hev2 r hgoodacc⟩
                      · obtain ⟨⟨sw0, hsw0, hbad0⟩, hgood2⟩ := hrcv2 r hr
                        refine ⟨?badnet, hgood2⟩
                        rcases evolves_lookup o l hev r with
                          ⟨han, hbn⟩ | ⟨u, v, hu, hv, _, hm⟩
                        · rw [hbn] at hsw0; cases hsw0
                        · rw [hv] at hsw0
                          injection hsw0 with he
                          subst he
                          exact ⟨u, hu, fun hsu => hbad0 (hm hsu)⟩
                    case lnk =>
                      intro e he
                      rw [List.mem_append] at he
                      rcases he with he | he
                      · exact hlink e he
                      · exact (evolves_portLinked o l hev e.1 e.2).mpr
                          (hlink2 e he)
                    case ok =>
                      apply okEvents_append hok
                      apply okEvents_weaken ?sub hok2
                      case sub =>
                        intro x hx
                        rw [List.mem_singleton] at hx
                        subst hx
                        exact List.mem_append.mpr (Or.inl htin2)
                  · rw [List.map_append, List.mem_append]
                    exact Or.inl htin2
                  · intro t3 ht3
                    exact hts2 t3 (List.mem_cons_of_mem _ ht3)
            exact hfold _ _ hbase htin hts

/-! ## Claim C6: the exchange level -/

theorem upLinkedNeighbors_mem (sw : Switch) (t : String) :
    t ∈ upLinkedNeighbors sw ↔
      ∃ pp ∈ sw.ports, pp.2.status = "up" ∧ pp.2.linkedNode = some t := by
  rw [upLinkedNeighbors, List.mem_filterMap]
  constructor
  · rintro ⟨pp, hmem, hf⟩
    cases hL : pp.2.linkedNode with
    | none => rw [hL] at hf; cases hf
    | some n =>
        rw [hL] at hf
        dsimp only at hf
        by_cases hc : pp.2.status = "up"
        · rw [if_pos hc] at hf
          cases hf
          exact ⟨pp, hmem, hc, hL⟩
        · rw [if_neg hc] at hf
          cases hf
  · rintro ⟨pp, hmem, hs, hL⟩
    refine ⟨pp, hmem, ?hf⟩
    rw [hL]
    simp [hs]

theorem exchangeLsa_eq_nolsa (fuel : Nat) (net : List (String × Switch))
    (origin : String) (osw : Switch)
    (h1 : alookup net origin = some osw)
    (h2 : alookup osw.lsdb origin = none) :
    exchangeLsa fuel net origin = (net, []) := by
  rw [exchangeLsa, h1]
  dsimp only
  rw [h2]

theorem exchangeLsa_eq (fuel : Nat) (net : List (String × Switch))
    (origin : String) (osw : Switch) (myLsa : List (String × Nat))
    (h1 : alookup net origin = some osw)
    (h2 : alookup osw.lsdb origin = some myLsa) :
    exchangeLsa fuel net origin =
      (upLinkedNeighbors osw).foldl
        (fun acc t =>
          ((floodLsa fuel acc.1 origin myLsa origin t).1,
            acc.2 ++ (floodLsa fuel acc.1 origin myLsa origin t).2))
        (net, []) := by
  rw [exchangeLsa, h1]
  dsimp only
  rw [h2]

theorem exchange_spec (fuel : Nat) (net : List (String × Switch))
    (origin : String) (osw : Switch) (myLsa : List (String × Nat))
    (h1 : alookup net origin = some osw)
    (h2 : alookup osw.lsdb origin = some myLsa) :
    FloodInv origin myLsa origin net (exchangeLsa fuel net origin) := by
  rw [exchangeLsa_eq fuel net origin osw myLsa h1 h2]
  have hts : ∀ t2 ∈ upLinkedNeighbors osw, portLinked net origin t2 := by
    intro t2 ht2
    rcases (upLinkedNeighbors_mem osw t2).mp ht2 with ⟨pp, hpmem, hup, hlk⟩
    exact portLinked_intro net origin osw t2 pp.1 pp.2
      (alookup_mem net origin osw h1) hpmem hlk
  have hfold : ∀ (ts : List String)
      (acc : (List (String × Switch)) × List (String × String)),
      FloodInv origin myLsa origin net acc →
      (∀ t2 ∈ ts, portLinked net origin t2) →
      FloodInv origin myLsa origin net
        (ts.foldl (fun acc t =>
          ((floodLsa fuel acc.1 origin myLsa origin t).1,
            acc.2 ++ (floodLsa fuel acc.1 origin myLsa origin t).2)) acc) := by
    intro ts
    induction ts with
    | nil => intro acc hinv _; exact hinv
    | cons t2 ts iht =>
        intro acc hinv hts2
        obtain ⟨hev, hnd, hrcv, hlink, hok⟩ := hinv
        have hpl : portLinked acc.1 origin t2 :=
          (evolves_portLinked origin myLsa hev origin t2).mp
            (hts2 t2 (List.mem_cons_self _ _))
        obtain ⟨hev2, hnd2, hrcv2, hlink2, hok2⟩ :=
          flood_spec origin myLsa fuel origin t2 acc.1 hpl
        rw [List.foldl_cons]
        apply iht
        · refine ⟨evolves_trans origin myLsa hev hev2, ?nd, ?rc, ?lnk, ?ok⟩
          case nd =>
            rw [List.map_append, List.nodup_append]
            refine ⟨hnd, hnd2, ?dis⟩
            intro r hr1 hr2
            obtain ⟨⟨sw0, hsw0, hbad0⟩, hgood0⟩ := hrcv2 r hr2
            exact hbad0 ((hrcv r hr1).2 sw0 hsw0)
          case rc =>
            intro r hr
            rw [List.map_append, List.mem_append] at hr
            rcases hr with hr | hr
            · obtain ⟨hbadnet, hgoodacc⟩ := hrcv r hr
              exact ⟨hbadnet,
                evolves_lookupGood origin myLsa hev2 r hgoodacc⟩
            · obtain ⟨⟨sw0, hsw0, hbad0⟩, hgood2⟩ := hrcv2 r hr
              refine ⟨?badnet, hgood2⟩
              rcases evolves_lookup origin myLsa hev r with
                ⟨han, hbn⟩ | ⟨u, v, hu, hv, _, hm⟩
              · rw [hbn] at hsw0; cases hsw0
              · rw [hv] at hsw0
                injection hsw0 with he
                subst he
                exact ⟨u, hu, fun hsu => hbad0 (hm hsu)⟩
          case lnk =>
            intro e he
            rw [List.mem_append] at he
            rcases he with he | he
            · exact hlink e he
            · exact (evolves_portLinked origin myLsa hev e.1 e.2).mpr
                (hlink2 e he)
          case ok =>
            apply okEvents_append hok
            apply okEvents_weaken ?sub hok2
            case sub =>
              intro x hx
              rw [List.mem_singleton] at hx
              subst hx
              exact List.mem_append.mpr (Or.inr (List.mem_singleton.mpr rfl))
        · intro t3 ht3
          exact hts2 t3 (List.mem_cons_of_mem _ ht3)
  exact hfold _ _
    ⟨evolves_refl origin myLsa net, by simp, by simp, by simp, trivial⟩ hts

theorem exchange_events_le (fuel : Nat) (net : List (String × Switch))
    (origin : String) :
    (exchangeLsa fuel net origin).2.length ≤ linkCount net := by
  cases hO : alookup net origin with
  | none =>
      rw [exchangeLsa, hO]
      simp
  | some osw =>
      cases hL : alookup osw.lsdb origin with
      | none =>
          rw [exchangeLsa, hO]
          dsimp only
          rw [hL]
          simp
      | some myLsa =>
          obtain ⟨hev, hnd, hrcv, hlink, hok⟩ :=
            exchange_spec fuel net origin osw myLsa hO hL
          have horig : ∀ a ∈ [origin],
              a ∉ (exchangeLsa fuel net origin).2.map Prod.snd := by
            intro a ha hmem
            rw [List.mem_singleton] at ha
            rw [ha] at hmem
            obtain ⟨⟨sw0, hsw0, hbad⟩, hg0⟩ := hrcv origin hmem
            rw [hO] at hsw0
            injection hsw0 with he
            subst he
            exact hbad hL
          have hpn := pairs_nodup (exchangeLsa fuel net origin).2 [origin]
            hok hnd horig
          have hsub : ∀ x ∈ (exchangeLsa fuel net origin).2.map
              (fun e => Sym2.mk e), x ∈ linkPairs net := by
            intro x hx
            rcases List.mem_map.mp hx with ⟨e, hemem, hxe⟩
            subst hxe
            have hl2 := hlink e hemem
            rw [linkPairs]
            apply List.mem_dedup.mpr
            exact List.mem_map.mpr ⟨(e.1, e.2), hl2, rfl⟩
          calc (exchangeLsa fuel net origin).2.length =
              ((exchangeLsa fuel net origin).2.map
                (fun e => Sym2.mk e)).length := (List.length_map _ _).symm
            _ ≤ (linkPairs net).length := length_le_of_nodup_subset hpn hsub
            _ = linkCount net := rfl

theorem exchange_fuel_eq (net : List (String × Switch)) (origin : String)
    (f₁ f₂ : Nat) (h₁ : net.length < f₁) (h₂ : net.length < f₂) :
    exchangeLsa f₁ net origin = exchangeLsa f₂ net origin := by
  cases hO : alookup net origin with
  | none => rw [exchangeLsa, hO, exchangeLsa, hO]
  | some osw =>
      cases hL : alookup osw.lsdb origin with
      | none =>
          rw [exchangeLsa_eq_nolsa f₁ net origin osw hO hL,
            exchangeLsa_eq_nolsa f₂ net origin osw hO hL]
      | some myLsa =>
          rw [exchangeLsa_eq f₁ net origin osw myLsa hO hL,
            exchangeLsa_eq f₂ net origin osw myLsa hO hL]
          have hfold : ∀ (ts : List String)
              (acc : (List (String × Switch)) × List (String × String)),
              badCount origin myLsa acc.1 ≤ net.length →
              ts.foldl (fun acc t =>
                ((floodLsa f₁ acc.1 origin myLsa origin t).1,
                  acc.2 ++ (floodLsa f₁ acc.1 origin myLsa origin t).2)) acc =
              ts.foldl (fun acc t =>
                ((floodLsa f₂ acc.1 origin myLsa origin t).1,
                  acc.2 ++ (floodLsa f₂ acc.1 origin myLsa origin t).2)) acc := by
            intro ts
            induction ts with
            | nil => intro acc _; rfl
            | cons t2 ts iht =>
                intro acc hacc
                have heq : floodLsa f₁ acc.1 origin myLsa origin t2 =
                    floodLsa f₂ acc.1 origin myLsa origin t2 :=
                  flood_fuel_eq origin myLsa (badCount origin myLsa acc.1)
                    f₁ f₂ origin t2 acc.1 (Nat.le_refl _) (by omega) (by omega)
                rw [List.foldl_cons, List.foldl_cons, heq]
                apply iht
                have hb1 : badCount origin myLsa
                    (floodLsa f₂ acc.1 origin myLsa origin t2).1 ≤
                      badCount origin myLsa acc.1 :=
                  evolves_badCount origin myLsa
                    (flood_evolves origin myLsa f₂ origin t2 acc.1)
                exact le_trans hb1 hacc
          exact hfold _ _ (badCount_le_length origin myLsa net)

/-- C6: LSA flooding terminates and is bounded.  Any fuel (call-depth
budget) beyond the number of switches yields the same final lab and the
same event trace, so the chain of `receive_lsa` calls triggered by one
origination (`exchange_ospf_lsa`) is finite — a switch re-floods only
when storing the LSA strictly changed its LSDB — and the number of
re-flood events for a single LSA is bounded by the number of links. -/
theorem lsa_flooding_terminates_and_bounded (net : List (String × Switch))
    (origin : String) (f₁ f₂ : Nat)
    (h₁ : net.length < f₁) (h₂ : net.length < f₂) :
    exchangeLsa f₁ net origin = exchangeLsa f₂ net origin ∧
    (exchangeLsa f₁ net origin).2.length ≤ linkCount net :=
  ⟨exchange_fuel_eq net origin f₁ f₂ h₁ h₂, exchange_events_le f₁ net origin⟩

/-- C6 witness: origination by `S` on the converged star lab. -/
theorem lsa_flooding_terminates_and_bounded_witness :
    exchangeLsa 4 netStar "S" = exchangeLsa 5 netStar "S" ∧
    (exchangeLsa 4 netStar "S").2.length ≤ linkCount netStar :=
  lsa_flooding_terminates_and_bounded netStar "S" 4 5 (by decide) (by decide)
